import Mathlib

/-!
Verification of the bracket construction and match-advancement engine of the
tennis-legue repository against its natural-language specification.

The development shallowly embeds `src/app/services/bracket_service.py`
(class `BracketService`) together with the parts of
`src/app/models/bracket_model.py`, `src/app/models/tournament_model.py` and
`src/app/services/tournament_service.py` that the bracket engine reads.

Modelling conventions:
- Python exceptions are modelled with `Except PyErr`; the constructors of
  `PyErr` refine the Python exception classes (every `ValueError` raised by
  the source gets its own constructor, classified back by `isValueError`).
- `str(uuid4())` fresh match identifiers are modelled by a deterministic
  fresh-name supply `mkMatchId` threaded as a counter; the only property the
  source relies on is that the generated strings are pairwise distinct and
  distinct from all player identifiers.
- `random.shuffle(player_ids)` (line 349) is modelled by quantifying over the
  post-shuffle order: `generateSE` receives the list as it is after the
  shuffle, and theorems about the effect of the shuffle quantify over
  permutations of the caller-supplied list.
- The JSON file stores of `TournamentService` and `BracketService` are
  modelled as in-memory lists inside a state record `St`.
-/

/-- Python exception values raised by the modelled code.  Each constructor
records the raise site; `isValueError` recovers the Python class hierarchy
level that `except ValueError` clauses test. -/
inductive PyErr where
  /-- generic `ValueError` -/
  | valueError
  /-- `ValueError` from `record_match_result`: tournament id unknown (line 461) -/
  | tournamentNotFound
  /-- `ValueError`: no bracket stored for the tournament (line 568) -/
  | bracketNotFound
  /-- `ValueError`: match id not present in the bracket (line 563) -/
  | matchNotFound
  /-- `ValueError`: match status is not PENDING (line 487) -/
  | notPending
  /-- `ValueError`: a player slot is unset (line 489) -/
  | missingPlayers
  /-- `ValueError`: scores are equal (line 494) -/
  | equalScores
  /-- `PermissionError`: requester is not the tournament admin (line 465) -/
  | permissionError
  /-- `RuntimeError`: next_match_id not found in the bracket (line 540) -/
  | consistencyError
  /-- `RuntimeError`: winner_to_player_slot is neither 1 nor 2 (line 529) -/
  | invalidSlot
  /-- `NameError`: evaluation of a name absent from the module namespace -/
  | nameError
  /-- `IndexError`: list subscript out of range -/
  | indexError
  /-- `NotImplementedError` (line 84) -/
  | notImplementedError
  /-- loop-fuel marker; proved unreachable for the fuel used by callers -/
  | outOfFuel
deriving DecidableEq, Repr

/-- Which `PyErr` constructors model instances of Python `ValueError`
(the class caught by the `except ValueError` clause at line 552). -/
def PyErr.isValueError : PyErr → Bool
  | .valueError | .tournamentNotFound | .bracketNotFound | .matchNotFound
  | .notPending | .missingPlayers | .equalScores => true
  | _ => false

/-- The spec taxonomy class `InvalidInput` (spec section 7): malformed or
insufficient request data, i.e. unset player slots or equal scores. -/
def PyErr.isInvalidInput : PyErr → Bool
  | .missingPlayers | .equalScores => true
  | _ => false

/-- The spec taxonomy class `NotFound` (spec section 7). -/
def PyErr.isNotFound : PyErr → Bool
  | .tournamentNotFound | .bracketNotFound | .matchNotFound => true
  | _ => false

/-- `MatchStatus` enum of `src/app/models/bracket_model.py` lines 7-13. -/
inductive MatchStatus where
  | PENDING
  | PLAYER1_WIN
  | PLAYER2_WIN
  | DRAW
  | COMPLETED
  | BYE
deriving DecidableEq, Repr

/-- `MatchModel` of `src/app/models/bracket_model.py` lines 15-36.
Identifiers are strings, as in the source. -/
structure MatchModel where
  id : String
  tournament_id : String
  round_number : Nat
  match_in_round : Nat
  player1_id : Option String := none
  player2_id : Option String := none
  winner_id : Option String := none
  score_player1 : Option Int := none
  score_player2 : Option Int := none
  status : MatchStatus := .PENDING
  next_match_id : Option String := none
  winner_to_player_slot : Option Nat := none
deriving DecidableEq, Repr

/-- Deterministic fresh-name supply standing for `str(uuid4())` in
`MatchModel.id` generation.  The unary payload makes pairwise distinctness
(and distinctness from short player identifiers) provable from lengths. -/
def mkMatchId (k : Nat) : String :=
  "match-" ++ String.mk (List.replicate k '*')

/-- Python truthiness of an optional string: `None` and the empty string are
falsy (the source tests player slots and next_match_id with bare `if`). -/
def falsyStr : Option String → Bool
  | none => true
  | some s => s == ""

/-- A BYE match as created at lines 371-378: one player, decided at creation
with that player as winner. -/
def byeMatch (tid : String) (idx : Nat) (pid : String) (mid : String) : MatchModel :=
  { id := mid, tournament_id := tid, round_number := 1, match_in_round := idx,
    player1_id := some pid, status := .BYE, winner_id := some pid }

/-- A round-1 PENDING match as created at lines 390-397. -/
def pendingMatch (tid : String) (idx : Nat) (p1 p2 : String) (mid : String) : MatchModel :=
  { id := mid, tournament_id := tid, round_number := 1, match_in_round := idx,
    player1_id := some p1, player2_id := some p2, status := .PENDING }

/-- Loop at lines 369-382: one BYE match per bye player, in list order.
Returns (matches, advancers, next counter); the advancer for a bye is the
player id itself (line 381). -/
def buildByes (tid : String) : List String → Nat → Nat →
    List MatchModel × List String × Nat
  | [], _, c => ([], [], c)
  | p :: ps, idx, c =>
    let m := byeMatch tid idx p (mkMatchId c)
    let (ms, adv, cOut) := buildByes tid ps (idx + 1) (c + 1)
    (m :: ms, p :: adv, cOut)

/-- Loop at lines 385-401: pair the remaining round-1 players sequentially.
The source indexes `players_for_round1_matches[i+1]` without a guard
(line 388), so an odd-length list raises IndexError.  The advancer for a
played match is the match id (line 400). -/
def buildPairs (tid : String) : List String → Nat → Nat →
    Except PyErr (List MatchModel × List String × Nat)
  | [], _, c => .ok ([], [], c)
  | [_], _, _ => .error .indexError
  | p :: q :: rest, idx, c =>
    let m := pendingMatch tid idx p q (mkMatchId c)
    match buildPairs tid rest (idx + 1) (c + 1) with
    | .ok (ms, adv, cOut) => .ok (m :: ms, m.id :: adv, cOut)
    | .error e => .error e

/-- Mutation `prev_match.next_match_id = new_match.id;
prev_match.winner_to_player_slot = slot` (lines 439-440 and 447-448), seen
through the shared list `all_matches_list`.  The source mutates the single
object stored under the uuid key; generated ids are pairwise distinct, so
updating every list entry carrying the id is the same transformation. -/
def setLink (srcId nid : String) (slot : Nat) (ms : List MatchModel) : List MatchModel :=
  ms.map fun m =>
    if m.id = srcId then
      { m with next_match_id := some nid, winner_to_player_slot := some slot }
    else m

/-- Inner loop at lines 417-450: pair the advancers of the previous round two
at a time.  `acc` is `all_matches_list`.  For each pair, a fresh PENDING
match is appended; a source that is a key of `previous_round_match_objects`
(membership modelled by `prevIds.contains`) is linked to the new match,
otherwise the source is a bye player id and is written directly into the
corresponding player slot (lines 436-450).  The unguarded subscript
`current_round_advancers[i+1]` (line 419) raises IndexError on an odd tail. -/
def buildRoundPairs (tid : String) (rnd : Nat) (prevIds : List String) :
    List String → Nat → Nat → List MatchModel →
    Except PyErr (List MatchModel × List String × Nat)
  | [], _, c, acc => .ok (acc, [], c)
  | [_], _, _, _ => .error .indexError
  | s1 :: s2 :: rest, idx, c, acc =>
    let mid := mkMatchId c
    let newMatch : MatchModel :=
      { id := mid, tournament_id := tid, round_number := rnd, match_in_round := idx,
        player1_id := if prevIds.contains s1 then none else some s1,
        player2_id := if prevIds.contains s2 then none else some s2,
        status := .PENDING }
    let acc1 := acc ++ [newMatch]
    let acc2 := if prevIds.contains s1 then setLink s1 mid 1 acc1 else acc1
    let acc3 := if prevIds.contains s2 then setLink s2 mid 2 acc2 else acc2
    match buildRoundPairs tid rnd prevIds rest (idx + 1) (c + 1) acc3 with
    | .ok (accOut, adv, cOut) => .ok (accOut, mid :: adv, cOut)
    | .error e => .error e

/-- Outer loop at lines 409-453: `while len(current_round_advancers) > 1`.
Each iteration builds the next round from the previous advancers and then
sets `previous_round_match_objects` to exactly the matches created in the
round (line 453), i.e. the new advancer list.  Fuel bounds the iteration
count; every caller passes fuel strictly larger than the number of
iterations actually performed, so `.outOfFuel` is unreachable. -/
def buildRounds (tid : String) : Nat → List String → List String → Nat →
    List MatchModel → List (Nat × List String) → Nat →
    Except PyErr (List MatchModel × List (Nat × List String))
  | 0, _, _, _, _, _, _ => .error .outOfFuel
  | fuel + 1, adv, prevIds, rnd, ms, rs, c =>
    if adv.length > 1 then
      match buildRoundPairs tid (rnd + 1) prevIds adv 1 c ms with
      | .ok (msOut, newAdv, cOut) =>
        buildRounds tid fuel newAdv newAdv (rnd + 1) msOut
          (rs ++ [(rnd + 1, newAdv)]) cOut
      | .error e => .error e
    else .ok (ms, rs)

/-- `bracket_size = 1; while bracket_size < n: bracket_size *= 2`
(lines 352-354), as a fuel recursion.  Fuel `n` always suffices because the
accumulator doubles from 1 and `n < 2 ^ n`. -/
def bsLoop : Nat → Nat → Nat → Nat
  | 0, bs, _ => bs
  | fuel + 1, bs, n => if bs < n then bsLoop fuel (2 * bs) n else bs

/-- Bracket size: the value the while loop at lines 352-354 leaves in
`bracket_size`. -/
def bracketSize (n : Nat) : Nat := bsLoop n 1 n

/-- The final single-elimination algorithm of
`_generate_single_elimination_matches` (lines 343-455), applied to the
player list as it stands after `random.shuffle` (line 349).  Returns
`(all_matches_list, rounds_structure_dict)`; the dict is modelled as an
association list in key-insertion order. -/
def generateSE (shuffled : List String) (tid : String) :
    Except PyErr (List MatchModel × List (Nat × List String)) :=
  let n := shuffled.length
  if n < 2 then .error .valueError
  else
    let numByes := bracketSize n - n
    let (byeMs, byeAdv, c1) := buildByes tid (shuffled.take numByes) 1 0
    match buildPairs tid (shuffled.drop numByes) (numByes + 1) c1 with
    | .error e => .error e
    | .ok (pairMs, pairAdv, c2) =>
      let r1Matches := byeMs ++ pairMs
      let r1Ids := r1Matches.map (·.id)
      buildRounds tid (bracketSize n) (byeAdv ++ pairAdv) r1Ids 1
        r1Matches [(1, r1Ids)] c2

/-- Names bound in the module namespace of
`src/app/services/bracket_service.py` by its import statements (lines 1-12)
and top-level assignments (lines 14-17). -/
def bracketServiceModuleNames : List String :=
  ["json", "os", "math", "random", "List", "Optional", "Dict", "Any",
   "BracketModel", "MatchModel", "MatchStatus", "TournamentConfig",
   "TournamentType", "TournamentService", "UserService",
   "DATA_DIR", "BRACKETS_FILE", "BracketService"]

/-- Evaluation of a bare name in the module namespace of
bracket_service.py: a name that is not bound raises `NameError`. -/
def pyLookup (n : String) : Except PyErr Unit :=
  if bracketServiceModuleNames.contains n then .ok () else .error .nameError

/-- The full body of `_generate_single_elimination_matches` (lines 105-455)
as executed.  After the guard at lines 110-112, the dead first draft
(lines 114-222) computes only local values that are never returned and whose
statements cannot raise for two or more players, until the comprehension
`{i: str(uuid4()) for i in range(total_matches_in_bracket)}` at line 223
evaluates the bare name `uuid4`, which no import of the module binds.  The
continuation (the rest of the draft, then the final algorithm at lines
343-455, modelled by `generateSE`) runs only if that lookup succeeds.
The result does not depend on the shuffles at lines 115 and 349, so the
function takes the (shuffled) player list directly. -/
def genFullModel (playerIds : List String) (tid : String) :
    Except PyErr (List MatchModel × List (Nat × List String)) :=
  if playerIds.length < 2 then .error .valueError
  else
    match pyLookup "uuid4" with
    | .error e => .error e
    | .ok _ => generateSE playerIds tid

/-- `TournamentConfig` of `src/app/models/tournament_model.py`, restricted to
the fields read by the bracket engine (name, dates and invite token are
neither read nor written by any modelled operation). -/
structure Tournament where
  id : String
  tournament_type : String
  admin_id : String
  player_ids : List String
  status : String
deriving DecidableEq, Repr

/-- `BracketModel` of `src/app/models/bracket_model.py` lines 38-51.  The
field `matches` of the source is called `matchList` here because `matches`
is a reserved word in Lean. -/
structure BracketModel where
  id : String
  tournament_id : String
  tournament_type : String
  matchList : List MatchModel
  rounds_structure : List (Nat × List String)
deriving DecidableEq, Repr

/-- The two JSON file stores (tournaments.json and brackets.json) as
in-memory state. -/
structure St where
  tournaments : List Tournament
  brackets : List BracketModel
deriving DecidableEq, Repr

/-- `TournamentService.get_tournament_by_id` (tournament_service.py lines
44-49): first stored tournament with the id. -/
def getTournamentById (ts : List Tournament) (tid : String) : Option Tournament :=
  ts.find? (fun t => t.id == tid)

/-- `BracketService.get_bracket_by_tournament_id` (lines 45-50): first stored
bracket for the tournament. -/
def getBracketByTournamentId (bs : List BracketModel) (tid : String) : Option BracketModel :=
  bs.find? (fun b => b.tournament_id == tid)

/-- The allowed tournament statuses of the `valid_status` validator in
tournament_model.py. -/
def allowedStatuses : List String :=
  ["PENDING", "REGISTRATION_OPEN", "ACTIVE", "COMPLETED", "CANCELLED"]

/-- Set the status of the first tournament with the given id (the loop of
`update_tournament_status`, tournament_service.py lines 107-114); `none` when
no tournament matches, in which case nothing is saved. -/
def setStatusFirst : List Tournament → String → String → Option (List Tournament)
  | [], _, _ => none
  | t :: rest, tid, status =>
    if t.id == tid then some ({ t with status := status } :: rest)
    else (setStatusFirst rest tid status).map (t :: ·)

/-- Behaviour of the injected tournament-status collaborator
(`self.tournament_service.update_tournament_status`): from the stored
tournaments it either returns the updated store or raises. -/
def StatusSink : Type :=
  List Tournament → String → String → Except PyErr (List Tournament)

/-- `TournamentService.update_tournament_status` (tournament_service.py lines
96-119) as a status sink: an invalid status value raises ValueError
(lines 101-104); otherwise the first matching tournament is updated and
saved, and an unknown id is silently a no-op (returns None). -/
def defaultSink : StatusSink := fun ts tid status =>
  if allowedStatuses.contains status then
    match setStatusFirst ts tid status with
    | some tsOut => .ok tsOut
    | none => .ok ts
  else .error .valueError

/-- Lines 497-505: set both scores, then decide winner and status from the
strict comparison (`if p1_score > p2_score ... elif p2_score > p1_score`). -/
def decideMatch (m : MatchModel) (p1s p2s : Int) : MatchModel :=
  let m1 := { m with score_player1 := some p1s, score_player2 := some p2s }
  if p1s > p2s then
    { m1 with winner_id := m.player1_id, status := .PLAYER1_WIN }
  else if p2s > p1s then
    { m1 with winner_id := m.player2_id, status := .PLAYER2_WIN }
  else m1

/-- Loop at lines 476-513 restricted to the match search and update: find the
first match with the requested id, validate it (status must be PENDING, both
player slots truthy, scores distinct, lines 486-494), and replace it in
place with the decided match.  Later matches are untouched; a miss raises
the ValueError of line 563. -/
def recordOnMatches (p1s p2s : Int) (matchId : String) :
    List MatchModel → Except PyErr (List MatchModel × MatchModel)
  | [] => .error .matchNotFound
  | m :: rest =>
    if m.id == matchId then
      if m.status ≠ MatchStatus.PENDING then .error .notPending
      else if falsyStr m.player1_id || falsyStr m.player2_id then .error .missingPlayers
      else if p1s == p2s then .error .equalScores
      else
        let m1 := decideMatch m p1s p2s
        .ok (m1 :: rest, m1)
    else
      match recordOnMatches p1s p2s matchId rest with
      | .ok (restOut, mm) => .ok (m :: restOut, mm)
      | .error e => .error e

/-- Advancement search at lines 518-543: scan `bracket.matches` (already
holding the decided match) for the first match with id `nid`, and write the
winner into the slot selected by `winner_to_player_slot`; any other slot
value raises the RuntimeError of line 529, and a miss raises the consistency
RuntimeError of line 540. -/
def advanceList (m1 : MatchModel) (nid : String) :
    List MatchModel → Except PyErr (List MatchModel)
  | [] => .error .consistencyError
  | tm :: rest =>
    if tm.id == nid then
      match m1.winner_to_player_slot with
      | some 1 => .ok ({ tm with player1_id := m1.winner_id } :: rest)
      | some 2 => .ok ({ tm with player2_id := m1.winner_id } :: rest)
      | _ => .error .invalidSlot
    else
      match advanceList m1 nid rest with
      | .ok restOut => .ok (tm :: restOut)
      | .error e => .error e

/-- The final-match branch at lines 544-556: signal COMPLETED to the
tournament service; a ValueError from it is caught and only printed
(lines 552-554), any other exception propagates. -/
def finalizeTournament (sink : StatusSink) (ts : List Tournament) (tid : String) :
    Except PyErr (List Tournament) :=
  match sink ts tid "COMPLETED" with
  | .ok tsOut => .ok tsOut
  | .error e => if e.isValueError then .ok ts else .error e

/-- Processing of the one bracket whose tournament id matches (lines
473-560): record the result on the match list, then run the advancement
logic.  `if updated_match_model.winner_id` and
`if updated_match_model.next_match_id` are Python truthiness tests, hence
the `falsyStr` guards. -/
def processBracket (sink : StatusSink) (ts : List Tournament) (b : BracketModel)
    (tid matchId : String) (p1s p2s : Int) :
    Except PyErr (BracketModel × List Tournament × MatchModel) :=
  match recordOnMatches p1s p2s matchId b.matchList with
  | .error e => .error e
  | .ok (ms1, m1) =>
    if falsyStr m1.winner_id then .ok ({ b with matchList := ms1 }, ts, m1)
    else if falsyStr m1.next_match_id then
      match finalizeTournament sink ts tid with
      | .ok tsOut => .ok ({ b with matchList := ms1 }, tsOut, m1)
      | .error e => .error e
    else
      match advanceList m1 (m1.next_match_id.getD "") ms1 with
      | .ok ms2 => .ok ({ b with matchList := ms2 }, ts, m1)
      | .error e => .error e

/-- The bracket-list scan of lines 471-568: process the first bracket whose
tournament id matches and leave the rest untouched; if none matches, raise
the ValueError of line 568. -/
def recordInBracketList (sink : StatusSink) (ts : List Tournament)
    (tid matchId : String) (p1s p2s : Int) :
    List BracketModel → Except PyErr (List BracketModel × List Tournament × MatchModel)
  | [] => .error .bracketNotFound
  | b :: rest =>
    if b.tournament_id == tid then
      match processBracket sink ts b tid matchId p1s p2s with
      | .ok (bOut, tsOut, m1) => .ok (bOut :: rest, tsOut, m1)
      | .error e => .error e
    else
      match recordInBracketList sink ts tid matchId p1s p2s rest with
      | .ok (restOut, tsOut, m1) => .ok (b :: restOut, tsOut, m1)
      | .error e => .error e

/-- `BracketService.record_match_result` (lines 457-570).  The admin check
precedes the bracket lookup; the updated bracket list and tournament store
are both persisted, and the decided match is returned. -/
def recordMatchResult (sink : StatusSink) (st : St) (tid matchId : String)
    (p1s p2s : Int) (uid : String) : Except PyErr (St × MatchModel) :=
  match getTournamentById st.tournaments tid with
  | none => .error .tournamentNotFound
  | some t =>
    if t.admin_id ≠ uid then .error .permissionError
    else
      match recordInBracketList sink st.tournaments tid matchId p1s p2s st.brackets with
      | .ok (bsOut, tsOut, m1) => .ok ({ tournaments := tsOut, brackets := bsOut }, m1)
      | .error e => .error e

/-- `BracketService.create_bracket_for_tournament` (lines 52-103).  When the
tournament is already ACTIVE or COMPLETED and a bracket is stored, the stored
bracket is returned with no state change (lines 61-64).  Otherwise generation
runs: the call into `_generate_single_elimination_matches` is `genFullModel`
(which raises NameError for every valid player list, so the continuation
building and saving a new bracket is unreachable; its fresh uuid is modelled
by a fixed placeholder id). -/
def createBracketForTournament (st : St) (tid : String) : Except PyErr (St × BracketModel) :=
  match getTournamentById st.tournaments tid with
  | none => .error .valueError
  | some t =>
    match
      if t.status == "ACTIVE" || t.status == "COMPLETED" then
        getBracketByTournamentId st.brackets tid
      else none
    with
    | some b => .ok (st, b)
    | none =>
      if t.player_ids.isEmpty then .error .valueError
      else if t.tournament_type == "SINGLE_ELIMINATION" then
        match genFullModel t.player_ids tid with
        | .error e => .error e
        | .ok (ms, rs) =>
          let newB : BracketModel :=
            { id := "bracket-fresh", tournament_id := tid,
              tournament_type := t.tournament_type, matchList := ms,
              rounds_structure := rs }
          let bsOut := (st.brackets.filter (fun b => b.tournament_id ≠ tid)) ++ [newB]
          match defaultSink st.tournaments tid "ACTIVE" with
          | .ok tsOut => .ok ({ tournaments := tsOut, brackets := bsOut }, newB)
          | .error e => .error e
      else .error .notImplementedError

/-! ### Freshness and distinctness of generated match identifiers -/

theorem mkMatchId_length (k : Nat) : (mkMatchId k).length = 6 + k := by
  rw [mkMatchId, String.length_append]
  have h1 : (String.mk (List.replicate k '*')).length = k := by
    simp [String.length]
  have h6 : ("match-").length = 6 := rfl
  rw [h1, h6]

theorem mkMatchId_inj {j k : Nat} (h : mkMatchId j = mkMatchId k) : j = k := by
  have hl := congrArg String.length h
  rw [mkMatchId_length, mkMatchId_length] at hl
  omega

theorem mkMatchId_ne {j k : Nat} (h : j ≠ k) : mkMatchId j ≠ mkMatchId k :=
  fun hc => h (mkMatchId_inj hc)

/-- No element of the list is a generated match identifier.  This models the
property the source gets from uuid4: player ids never collide with the fresh
match ids. -/
def FreshPlayers (ps : List String) : Prop :=
  ∀ p ∈ ps, ∀ k, p ≠ mkMatchId k

theorem freshPlayers_of_short (ps : List String) (h : ∀ p ∈ ps, p.length < 6) :
    FreshPlayers ps := by
  intro p hp k hc
  have := h p hp
  rw [hc, mkMatchId_length] at this
  omega

/-! ### The bracket-size loop -/

theorem bsLoop_stop {f bs n : Nat} (h : ¬ bs < n) : bsLoop f bs n = bs := by
  cases f with
  | zero => rfl
  | succ f => simp [bsLoop, h]

theorem bsLoop_ge {f : Nat} : ∀ {bs n : Nat}, n ≤ bs * 2 ^ f → n ≤ bsLoop f bs n := by
  induction f with
  | zero => intro bs n h; simpa [bsLoop] using h
  | succ f ih =>
    intro bs n h
    by_cases hlt : bs < n
    · simp only [bsLoop, hlt, if_true]
      apply ih
      have : bs * 2 ^ (f + 1) = 2 * bs * 2 ^ f := by ring
      omega
    · rw [bsLoop_stop hlt]; omega

theorem bsLoop_pow {f : Nat} : ∀ {bs n k : Nat}, bs = 2 ^ k →
    ∃ j, k ≤ j ∧ bsLoop f bs n = 2 ^ j := by
  induction f with
  | zero => intro bs n k h; exact ⟨k, le_rfl, h⟩
  | succ f ih =>
    intro bs n k h
    by_cases hlt : bs < n
    · simp only [bsLoop, hlt, if_true]
      have h2 : 2 * bs = 2 ^ (k + 1) := by rw [h]; ring
      obtain ⟨j, hj, hje⟩ := ih h2
      exact ⟨j, by omega, hje⟩
    · rw [bsLoop_stop hlt]; exact ⟨k, le_rfl, h⟩

theorem bsLoop_min {f : Nat} : ∀ {bs n k m : Nat}, bs = 2 ^ k → bs ≤ 2 ^ m →
    n ≤ 2 ^ m → bsLoop f bs n ≤ 2 ^ m := by
  induction f with
  | zero => intro bs n k m _ h1 _; simpa [bsLoop] using h1
  | succ f ih =>
    intro bs n k m hk h1 h2
    by_cases hlt : bs < n
    · simp only [bsLoop, hlt, if_true]
      have hkm : k < m := by
        by_contra hc
        have : 2 ^ m ≤ 2 ^ k := Nat.pow_le_pow_right (by omega) (by omega)
        omega
      have h2b : 2 * bs = 2 ^ (k + 1) := by rw [hk]; ring
      apply ih h2b _ h2
      calc 2 * bs = 2 ^ (k + 1) := h2b
        _ ≤ 2 ^ m := Nat.pow_le_pow_right (by omega) (by omega)
    · rw [bsLoop_stop hlt]; exact h1

theorem le_bracketSize (n : Nat) : n ≤ bracketSize n := by
  apply bsLoop_ge
  have := Nat.lt_two_pow n
  omega

theorem bracketSize_eq (n : Nat) : bracketSize n = 2 ^ Nat.clog 2 n := by
  apply le_antisymm
  · exact @bsLoop_min n 1 n 0 (Nat.clog 2 n) rfl Nat.one_le_two_pow
      ((Nat.le_pow_iff_clog_le (by omega)).mpr le_rfl)
  · have h1 : (1 : Nat) = 2 ^ 0 := rfl
    obtain ⟨j, _, hje⟩ := @bsLoop_pow n 1 n 0 h1
    have hge : n ≤ 2 ^ j := by
      rw [← hje]; exact le_bracketSize n
    have hcl : Nat.clog 2 n ≤ j := (Nat.le_pow_iff_clog_le (by omega)).mp hge
    rw [bracketSize, hje]
    exact Nat.pow_le_pow_right (by omega) hcl

theorem bracketSize_lt_two_mul (n : Nat) (h : 2 ≤ n) :
    2 ^ (Nat.clog 2 n - 1) < n ∧ 1 ≤ Nat.clog 2 n := by
  have hK : 0 < Nat.clog 2 n := Nat.clog_pos (by omega) h
  constructor
  · by_contra hc
    push_neg at hc
    have := (Nat.le_pow_iff_clog_le (by omega : (1 : Nat) < 2)).mp hc
    omega
  · omega

/-! ### The link-only-difference relation between match lists -/

/-- Two matches that agree on every field except possibly `next_match_id`
and `winner_to_player_slot`: the only mutation `setLink` performs. -/
def linkEq (a b : MatchModel) : Prop :=
  b.id = a.id ∧ b.tournament_id = a.tournament_id ∧ b.round_number = a.round_number ∧
  b.match_in_round = a.match_in_round ∧ b.player1_id = a.player1_id ∧
  b.player2_id = a.player2_id ∧ b.winner_id = a.winner_id ∧
  b.score_player1 = a.score_player1 ∧ b.score_player2 = a.score_player2 ∧
  b.status = a.status

theorem linkEq_refl (a : MatchModel) : linkEq a a := by
  simp [linkEq]

theorem linkEq_trans {a b c : MatchModel} (h1 : linkEq a b) (h2 : linkEq b c) :
    linkEq a c := by
  obtain ⟨e1, e2, e3, e4, e5, e6, e7, e8, e9, e10⟩ := h1
  obtain ⟨f1, f2, f3, f4, f5, f6, f7, f8, f9, f10⟩ := h2
  exact ⟨f1.trans e1, f2.trans e2, f3.trans e3, f4.trans e4, f5.trans e5,
    f6.trans e6, f7.trans e7, f8.trans e8, f9.trans e9, f10.trans e10⟩

theorem forall2_linkEq_refl (ms : List MatchModel) : List.Forall₂ linkEq ms ms :=
  List.forall₂_same.mpr fun x _ => linkEq_refl x

theorem forall2_linkEq_trans :
    ∀ {a b c : List MatchModel}, List.Forall₂ linkEq a b → List.Forall₂ linkEq b c →
      List.Forall₂ linkEq a c
  | _, _, _, List.Forall₂.nil, List.Forall₂.nil => List.Forall₂.nil
  | _, _, _, List.Forall₂.cons h1 t1, List.Forall₂.cons h2 t2 =>
    List.Forall₂.cons (linkEq_trans h1 h2) (forall2_linkEq_trans t1 t2)

theorem forall2_linkEq_setLink (s nid : String) (slot : Nat) (ms : List MatchModel) :
    List.Forall₂ linkEq ms (setLink s nid slot ms) := by
  rw [setLink, List.forall₂_map_right_iff]
  apply List.forall₂_same.mpr
  intro x _
  by_cases h : x.id = s <;> simp [h, linkEq]

/-- Splitting a `Forall₂` along an append on the left list. -/
theorem forall2_append_split {R : MatchModel → MatchModel → Prop} :
    ∀ {l1 l2 u : List MatchModel}, List.Forall₂ R (l1 ++ l2) u →
      ∃ u1 u2, u = u1 ++ u2 ∧ List.Forall₂ R l1 u1 ∧ List.Forall₂ R l2 u2 := by
  intro l1
  induction l1 with
  | nil => intro l2 u h; exact ⟨[], u, rfl, List.Forall₂.nil, h⟩
  | cons a l1 ih =>
    intro l2 u h
    cases h with
    | cons hab ht =>
      obtain ⟨u1, u2, rfl, h1, h2⟩ := ih ht
      exact ⟨_ :: u1, u2, rfl, List.Forall₂.cons hab h1, h2⟩

/-! ### Player-slot assignments -/

/-- The list of player ids written into `player1_id`/`player2_id` slots,
in match order, slot 1 before slot 2. -/
def slotList (ms : List MatchModel) : List String :=
  ms.flatMap fun m => m.player1_id.toList ++ m.player2_id.toList

theorem slotList_nil : slotList [] = [] := rfl

theorem slotList_cons (m : MatchModel) (ms : List MatchModel) :
    slotList (m :: ms) = (m.player1_id.toList ++ m.player2_id.toList) ++ slotList ms := rfl

theorem slotList_append (a b : List MatchModel) :
    slotList (a ++ b) = slotList a ++ slotList b := by
  simp [slotList]

theorem slotList_linkEq : ∀ {a b : List MatchModel}, List.Forall₂ linkEq a b →
    slotList a = slotList b
  | _, _, List.Forall₂.nil => rfl
  | _, _, List.Forall₂.cons h t => by
    obtain ⟨_, _, _, _, e5, e6, _⟩ := h
    rw [slotList_cons, slotList_cons, e5, e6, slotList_linkEq t]

/-! ### Shape of round-1 construction -/

/-- Shape of a BYE match produced for player `p` with an id drawn from the
counter interval `[lo, hi)`. -/
def ByeShape (tid : String) (lo hi : Nat) (p : String) (m : MatchModel) : Prop :=
  m.player1_id = some p ∧ m.player2_id = none ∧ m.winner_id = some p ∧
  m.status = .BYE ∧ m.round_number = 1 ∧ m.tournament_id = tid ∧
  m.next_match_id = none ∧ ∃ j, lo ≤ j ∧ j < hi ∧ m.id = mkMatchId j

/-- Shape of a PENDING match with an id drawn from `[lo, hi)` and the given
round number. -/
def PendShape (tid : String) (rnd lo hi : Nat) (m : MatchModel) : Prop :=
  m.status = .PENDING ∧ m.round_number = rnd ∧ m.winner_id = none ∧
  m.tournament_id = tid ∧ ∃ j, lo ≤ j ∧ j < hi ∧ m.id = mkMatchId j

theorem ByeShape_mono {tid : String} {lo hi lo2 hi2 : Nat} {p : String} {m : MatchModel}
    (h : ByeShape tid lo hi p m) (h1 : lo2 ≤ lo) (h2 : hi ≤ hi2) :
    ByeShape tid lo2 hi2 p m := by
  obtain ⟨a1, a2, a3, a4, a5, a6, a7, j, hj1, hj2, hj3⟩ := h
  exact ⟨a1, a2, a3, a4, a5, a6, a7, j, by omega, by omega, hj3⟩

theorem PendShape_mono {tid : String} {rnd lo hi lo2 hi2 : Nat} {m : MatchModel}
    (h : PendShape tid rnd lo hi m) (h1 : lo2 ≤ lo) (h2 : hi ≤ hi2) :
    PendShape tid rnd lo2 hi2 m := by
  obtain ⟨a1, a2, a3, a4, j, hj1, hj2, hj3⟩ := h
  exact ⟨a1, a2, a3, a4, j, by omega, by omega, hj3⟩

theorem buildByes_spec (tid : String) :
    ∀ (ps : List String) (idx c : Nat),
      ∃ ms, buildByes tid ps idx c = (ms, ps, c + ps.length) ∧
        List.Forall₂ (ByeShape tid c (c + ps.length)) ps ms := by
  intro ps
  induction ps with
  | nil => intro idx c; exact ⟨[], rfl, List.Forall₂.nil⟩
  | cons p rest ih =>
    intro idx c
    obtain ⟨ms, hms, hsh⟩ := ih (idx + 1) (c + 1)
    refine ⟨byeMatch tid idx p (mkMatchId c) :: ms, ?_, ?_⟩
    · simp only [buildByes, hms, List.length_cons]
      refine congrArg (Prod.mk _) (congrArg (Prod.mk _) (by omega))
    · constructor
      · exact ⟨rfl, rfl, rfl, rfl, rfl, rfl, rfl, c, le_rfl, by simp, rfl⟩
      · exact hsh.imp fun _ _ h => ByeShape_mono h (by omega) (by simp; omega)

theorem buildPairs_spec (tid : String) :
    ∀ (ps : List String) (idx c : Nat), 2 ∣ ps.length →
      ∃ ms, buildPairs tid ps idx c = .ok (ms, ms.map (fun m => m.id), c + ps.length / 2) ∧
        ms.length = ps.length / 2 ∧
        slotList ms = ps ∧
        (∀ m ∈ ms, PendShape tid 1 c (c + ps.length / 2) m ∧ m.next_match_id = none)
  | [], idx, c, _ => ⟨[], rfl, rfl, rfl, by simp⟩
  | [p], idx, c, h => by simp at h
  | p :: q :: rest, idx, c, h => by
    have hrest : 2 ∣ rest.length := by
      simp only [List.length_cons] at h
      omega
    obtain ⟨ms, hms, hlen, hslots, hshape⟩ := buildPairs_spec tid rest (idx + 1) (c + 1) hrest
    have hl2 : (p :: q :: rest).length / 2 = rest.length / 2 + 1 := by
      simp only [List.length_cons]
      omega
    refine ⟨pendingMatch tid idx p q (mkMatchId c) :: ms, ?_, ?_, ?_, ?_⟩
    · simp only [buildPairs, hms, hl2]
      refine congrArg Except.ok (congrArg (Prod.mk _) (congrArg (Prod.mk _) (by omega)))
    · simp only [List.length_cons, hlen, hl2]
      omega
    · simp only [slotList_cons, hslots, hl2, pendingMatch]
      rfl
    · intro m hm
      rcases List.mem_cons.mp hm with hm | hm
      · subst hm
        exact ⟨⟨rfl, rfl, rfl, rfl, c, le_rfl, by omega, rfl⟩, rfl⟩
      · obtain ⟨hp, hn⟩ := hshape m hm
        exact ⟨PendShape_mono hp (by omega) (by simp only [List.length_cons]; omega), hn⟩

/-! ### Helper facts about contains and filter -/

theorem contains_true_of_mem {l : List String} {a : String} (h : a ∈ l) :
    l.contains a = true := by
  simpa [List.contains] using List.elem_eq_true_of_mem h

theorem contains_false_of_forall {l : List String} {a : String}
    (h : ∀ x ∈ l, x ≠ a) : l.contains a = false := by
  induction l with
  | nil => rfl
  | cons x xs ih =>
    have hx : (a == x) = false := by
      rw [beq_eq_false_iff_ne]
      exact Ne.symm (h x (List.mem_cons_self x xs))
    simp only [List.contains_cons, hx, Bool.false_or]
    exact ih fun y hy => h y (List.mem_cons_of_mem x hy)

theorem contains_false_of_not_mem {l : List String} {a : String} (h : ¬ a ∈ l) :
    l.contains a = false := by
  cases hc : l.contains a
  · rfl
  · exact absurd (List.mem_of_elem_eq_true (by simpa [List.contains] using hc)) h

theorem filter_all_true {α : Type} {l : List α} {p : α → Bool}
    (h : ∀ x ∈ l, p x = true) : l.filter p = l := by
  induction l with
  | nil => rfl
  | cons x xs ih =>
    rw [List.filter_cons, h x (List.mem_cons_self x xs)]
    simp only [if_true]
    rw [ih fun y hy => h y (List.mem_cons_of_mem x hy)]

theorem filter_all_false {α : Type} {l : List α} {p : α → Bool}
    (h : ∀ x ∈ l, p x = false) : l.filter p = [] := by
  induction l with
  | nil => rfl
  | cons x xs ih =>
    rw [List.filter_cons, h x (List.mem_cons_self x xs)]
    simp only [Bool.false_eq_true, if_false]
    exact ih fun y hy => h y (List.mem_cons_of_mem x hy)

theorem filter_not_contains_self (l : List String) :
    l.filter (fun s => ! l.contains s) = [] :=
  filter_all_false fun x hx => by rw [contains_true_of_mem hx]; rfl

theorem PendShape_linkEq {tid : String} {rnd lo hi : Nat} {a b : MatchModel}
    (hp : PendShape tid rnd lo hi a) (he : linkEq a b) :
    PendShape tid rnd lo hi b := by
  obtain ⟨a1, a2, a3, a4, j, hj1, hj2, hj3⟩ := hp
  obtain ⟨e1, e2, e3, e4, e5, e6, e7, e8, e9, e10⟩ := he
  exact ⟨e10.trans a1, e3.trans a2, e7.trans a3, e2.trans a4, j, hj1, hj2, e1.trans hj3⟩

/-! ### The inner round-pairing loop -/

theorem buildRoundPairs_spec (tid : String) (rnd : Nat) (prevIds : List String) :
    ∀ (adv : List String) (idx c : Nat) (acc : List MatchModel),
      2 ∣ adv.length →
      (∀ s ∈ prevIds, ∃ j, j < c ∧ s = mkMatchId j) →
      ∃ accT news,
        buildRoundPairs tid rnd prevIds adv idx c acc
          = .ok (accT ++ news, news.map (fun m => m.id), c + adv.length / 2) ∧
        List.Forall₂ linkEq acc accT ∧
        news.length = adv.length / 2 ∧
        (∀ m ∈ news, PendShape tid rnd c (c + adv.length / 2) m) ∧
        slotList news = adv.filter (fun s => ! prevIds.contains s)
  | [], idx, c, acc, _, _ =>
    ⟨acc, [], by simp [buildRoundPairs], forall2_linkEq_refl acc, rfl, by simp, by simp [slotList]⟩
  | [s], idx, c, acc, h, _ => by simp at h
  | s1 :: s2 :: rest, idx, c, acc, h, hprev => by
    have hrest : 2 ∣ rest.length := by
      simp only [List.length_cons] at h
      omega
    have hl2 : (s1 :: s2 :: rest).length / 2 = rest.length / 2 + 1 := by
      simp only [List.length_cons]
      omega
    set mid := mkMatchId c with hmid
    set nm : MatchModel :=
      { id := mid, tournament_id := tid, round_number := rnd, match_in_round := idx,
        player1_id := if prevIds.contains s1 then none else some s1,
        player2_id := if prevIds.contains s2 then none else some s2,
        status := .PENDING } with hnm
    set acc1 := acc ++ [nm] with hacc1
    set acc2 := if prevIds.contains s1 then setLink s1 mid 1 acc1 else acc1 with hacc2
    set acc3 := if prevIds.contains s2 then setLink s2 mid 2 acc2 else acc2 with hacc3
    have h13 : List.Forall₂ linkEq acc1 acc3 := by
      have h12 : List.Forall₂ linkEq acc1 acc2 := by
        rw [hacc2]
        split
        · exact forall2_linkEq_setLink _ _ _ _
        · exact forall2_linkEq_refl _
      have h23 : List.Forall₂ linkEq acc2 acc3 := by
        rw [hacc3]
        split
        · exact forall2_linkEq_setLink _ _ _ _
        · exact forall2_linkEq_refl _
      exact forall2_linkEq_trans h12 h23
    have hprev1 : ∀ s ∈ prevIds, ∃ j, j < c + 1 ∧ s = mkMatchId j := by
      intro s hs
      obtain ⟨j, hj1, hj2⟩ := hprev s hs
      exact ⟨j, by omega, hj2⟩
    obtain ⟨accT3, news, hrec, hfa, hnlen, hshape, hslots⟩ :=
      buildRoundPairs_spec tid rnd prevIds rest (idx + 1) (c + 1) acc3 hrest hprev1
    have hfa13 : List.Forall₂ linkEq acc1 accT3 := forall2_linkEq_trans h13 hfa
    obtain ⟨accT, nmTl, heq, hfacc, hfnm⟩ := forall2_append_split hfa13
    obtain ⟨nmT, hnmT⟩ : ∃ nmT, nmTl = [nmT] ∧ linkEq nm nmT := by
      cases hfnm with
      | cons hx ht =>
        cases ht with
        | nil => exact ⟨_, rfl, hx⟩
    obtain ⟨hnmTl, hnmEq⟩ := hnmT
    subst hnmTl
    refine ⟨accT, nmT :: news, ?_, hfacc, ?_, ?_, ?_⟩
    · rw [buildRoundPairs]
      simp only [← hmid, ← hnm, ← hacc1, ← hacc2, ← hacc3, hrec]
      have hctr : c + 1 + rest.length / 2 = c + (s1 :: s2 :: rest).length / 2 := by
        rw [hl2]; omega
      have hids : mid :: news.map (fun m => m.id) = (nmT :: news).map (fun m => m.id) := by
        simp only [List.map_cons, hnmEq.1, hnm]
      rw [heq, List.append_assoc]
      simp only [List.singleton_append, hctr, hids]
    · simp only [List.length_cons, hnlen, hl2]
      omega
    · intro m hm
      rcases List.mem_cons.mp hm with hm | hm
      · subst hm
        refine PendShape_linkEq ?_ hnmEq
        refine ⟨rfl, rfl, rfl, rfl, c, le_rfl, ?_, rfl⟩
        rw [hl2]; omega
      · exact PendShape_mono (hshape m hm) (by omega) (by rw [hl2]; omega)
    · rw [slotList_cons, hslots]
      have hnmSlots : nmT.player1_id.toList ++ nmT.player2_id.toList
          = (if prevIds.contains s1 then [] else [s1])
            ++ (if prevIds.contains s2 then [] else [s2]) := by
        rw [hnmEq.2.2.2.2.1, hnmEq.2.2.2.2.2.1]
        by_cases hm1 : s1 ∈ prevIds <;> by_cases hm2 : s2 ∈ prevIds <;>
          simp [hnm, hm1, hm2]
      rw [hnmSlots]
      rw [List.filter_cons, List.filter_cons]
      by_cases hm1 : s1 ∈ prevIds <;> by_cases hm2 : s2 ∈ prevIds <;>
        simp [hm1, hm2, contains_true_of_mem, contains_false_of_not_mem]

theorem forall2_mem_right {R : MatchModel → MatchModel → Prop} :
    ∀ {l u : List MatchModel}, List.Forall₂ R l u → ∀ b ∈ u, ∃ a ∈ l, R a b
  | _, _, List.Forall₂.nil, b, hb => absurd hb (List.not_mem_nil b)
  | _, _, List.Forall₂.cons h t, b, hb => by
    rcases List.mem_cons.mp hb with hb | hb
    · exact ⟨_, List.mem_cons_self _ _, hb ▸ h⟩
    · obtain ⟨a, ha, hr⟩ := forall2_mem_right t b hb
      exact ⟨a, List.mem_cons_of_mem _ ha, hr⟩

/-! ### The outer rounds loop -/

theorem buildRounds_spec (tid : String) :
    ∀ (k fuel : Nat) (adv prevIds : List String) (rnd : Nat)
      (ms : List MatchModel) (rs : List (Nat × List String)) (c : Nat),
      adv.length = 2 ^ k → k < fuel →
      (∀ s ∈ prevIds, ∃ j, j < c ∧ s = mkMatchId j) →
      ∃ msT rest rsNew,
        buildRounds tid fuel adv prevIds rnd ms rs c = .ok (msT ++ rest, rs ++ rsNew) ∧
        List.Forall₂ linkEq ms msT ∧
        rest.length = 2 ^ k - 1 ∧
        (∀ m ∈ rest, m.status = .PENDING ∧ m.winner_id = none ∧
          rnd + 1 ≤ m.round_number ∧ m.tournament_id = tid) ∧
        rsNew.length = k ∧
        slotList rest
          = (if 1 < adv.length then adv.filter (fun s => ! prevIds.contains s) else [])
  | 0, 0, adv, prevIds, rnd, ms, rs, c, hlen, hfuel, hprev => by omega
  | 0, fuel + 1, adv, prevIds, rnd, ms, rs, c, hlen, hfuel, hprev => by
    have hg : ¬ adv.length > 1 := by omega
    refine ⟨ms, [], [], ?_, forall2_linkEq_refl ms, rfl, by simp, rfl, ?_⟩
    · simp only [buildRounds, if_neg hg, List.append_nil]
    · rw [slotList_nil, if_neg (by omega)]
  | k + 1, 0, adv, prevIds, rnd, ms, rs, c, hlen, hfuel, hprev => by omega
  | k + 1, fuel + 1, adv, prevIds, rnd, ms, rs, c, hlen, hfuel, hprev => by
    have hpow : 0 < 2 ^ k := Nat.pow_pos (by omega : (0:Nat) < 2)
    have hlen2 : adv.length = 2 ^ k * 2 := by rw [hlen, Nat.pow_succ]
    have hg : adv.length > 1 := by omega
    have heven : 2 ∣ adv.length := ⟨2 ^ k, by omega⟩
    have hhalf : adv.length / 2 = 2 ^ k := by omega
    obtain ⟨accT, news, hrec, hfacc, hnlen, hshape, hslots⟩ :=
      buildRoundPairs_spec tid (rnd + 1) prevIds adv 1 c ms heven hprev
    have hprevNew : ∀ s ∈ news.map (fun m => m.id), ∃ j, j < c + adv.length / 2 ∧
        s = mkMatchId j := by
      intro s hs
      obtain ⟨m, hm, hms⟩ := List.mem_map.mp hs
      obtain ⟨_, _, _, _, j, hj1, hj2, hj3⟩ := hshape m hm
      exact ⟨j, hj2, hms ▸ hj3⟩
    have hnalen : (news.map (fun m => m.id)).length = 2 ^ k := by
      rw [List.length_map, hnlen, hhalf]
    obtain ⟨msT2, rest2, rsNew2, hrec2, hfa2, hrl2, hshape2, hrsl2, hslots2⟩ :=
      buildRounds_spec tid k fuel (news.map (fun m => m.id)) (news.map (fun m => m.id))
        (rnd + 1) (accT ++ news) (rs ++ [(rnd + 1, news.map (fun m => m.id))])
        (c + adv.length / 2) hnalen (by omega) hprevNew
    obtain ⟨accT2, newsT2, heq2, hfaccT, hfnews⟩ := forall2_append_split hfa2
    refine ⟨accT2, newsT2 ++ rest2, (rnd + 1, news.map (fun m => m.id)) :: rsNew2,
      ?_, forall2_linkEq_trans hfacc hfaccT, ?_, ?_, ?_, ?_⟩
    · rw [buildRounds]
      simp only [if_pos hg, hrec, hrec2, heq2]
      rw [List.append_assoc, List.append_assoc]
      rfl
    · have hn2 : newsT2.length = news.length := (List.Forall₂.length_eq hfnews).symm
      rw [List.length_append, hn2, hnlen, hhalf, hrl2]
      have : 2 ^ (k + 1) = 2 ^ k * 2 := Nat.pow_succ 2 k
      omega
    · intro m hm
      rcases List.mem_append.mp hm with hm | hm
      · obtain ⟨a, ha, hr⟩ := forall2_mem_right hfnews m hm
        have hp := PendShape_linkEq (hshape a ha) hr
        obtain ⟨p1, p2, p3, p4, _⟩ := hp
        exact ⟨p1, p3, by omega, p4⟩
      · obtain ⟨q1, q2, q3, q4⟩ := hshape2 m hm
        exact ⟨q1, q2, by omega, q4⟩
    · simp only [List.length_cons, hrsl2]
    · rw [if_pos hg]
      have hz : slotList rest2 = [] := by
        rw [hslots2]
        split
        · exact filter_not_contains_self _
        · rfl
      rw [slotList_append, ← slotList_linkEq hfnews, hz, hslots, List.append_nil]


theorem forall2_mem_right_str {R : String → MatchModel → Prop} :
    ∀ {l : List String} {u : List MatchModel}, List.Forall₂ R l u →
      ∀ b ∈ u, ∃ a ∈ l, R a b
  | _, _, List.Forall₂.nil, b, hb => absurd hb (List.not_mem_nil b)
  | _, _, List.Forall₂.cons h t, b, hb => by
    rcases List.mem_cons.mp hb with hb | hb
    · exact ⟨_, List.mem_cons_self _ _, hb ▸ h⟩
    · obtain ⟨a, ha, hr⟩ := forall2_mem_right_str t b hb
      exact ⟨a, List.mem_cons_of_mem _ ha, hr⟩

/-- Transport a player-indexed `Forall₂` along a `Forall₂ linkEq`. -/
theorem forall2_str_trans {R T : String → MatchModel → Prop}
    (h : ∀ p a b, R p a → linkEq a b → T p b) :
    ∀ {ps : List String} {ams bms : List MatchModel},
      List.Forall₂ R ps ams → List.Forall₂ linkEq ams bms → List.Forall₂ T ps bms
  | _, _, _, List.Forall₂.nil, List.Forall₂.nil => List.Forall₂.nil
  | _, _, _, List.Forall₂.cons h1 t1, List.Forall₂.cons h2 t2 =>
    List.Forall₂.cons (h _ _ _ h1 h2) (forall2_str_trans h t1 t2)

/-- The correspondence between a bye player and its BYE match in the final
bracket (the fields that survive the later link mutations). -/
def ByePlayerOf (p : String) (m : MatchModel) : Prop :=
  m.player1_id = some p ∧ m.player2_id = none ∧ m.winner_id = some p ∧
  m.status = .BYE ∧ m.round_number = 1

theorem slotList_of_byeShape {tid : String} {lo hi : Nat} :
    ∀ {ps : List String} {ms : List MatchModel},
      List.Forall₂ (ByeShape tid lo hi) ps ms → slotList ms = ps
  | _, _, List.Forall₂.nil => rfl
  | _, _, List.Forall₂.cons h t => by
    obtain ⟨h1, h2, _⟩ := h
    rw [slotList_cons, h1, h2, slotList_of_byeShape t]
    rfl

/-! ### The master description of `generateSE` -/

theorem generateSE_spec (shuffled : List String) (tid : String)
    (h2 : 2 ≤ shuffled.length) (hf : FreshPlayers shuffled) :
    ∃ ms rs byeT pairT rest,
      generateSE shuffled tid = .ok (ms, rs) ∧
      ms = byeT ++ pairT ++ rest ∧
      byeT.length = bracketSize shuffled.length - shuffled.length ∧
      pairT.length = shuffled.length - bracketSize shuffled.length / 2 ∧
      rest.length = bracketSize shuffled.length / 2 - 1 ∧
      rs.length = Nat.clog 2 shuffled.length ∧
      List.Forall₂ ByePlayerOf
        (shuffled.take (bracketSize shuffled.length - shuffled.length)) byeT ∧
      (∀ m ∈ pairT, m.status = .PENDING ∧ m.round_number = 1 ∧ m.winner_id = none) ∧
      (∀ m ∈ rest, m.status = .PENDING ∧ m.winner_id = none ∧ 2 ≤ m.round_number) ∧
      slotList ms
        = shuffled ++ shuffled.take (bracketSize shuffled.length - shuffled.length) := by
  have hK1 : 1 ≤ Nat.clog 2 shuffled.length := (bracketSize_lt_two_mul _ h2).2
  have hltn : 2 ^ (Nat.clog 2 shuffled.length - 1) < shuffled.length :=
    (bracketSize_lt_two_mul _ h2).1
  have hn2K : shuffled.length ≤ 2 ^ Nat.clog 2 shuffled.length :=
    (Nat.le_pow_iff_clog_le (by omega)).mpr le_rfl
  have hBS : bracketSize shuffled.length = 2 ^ Nat.clog 2 shuffled.length :=
    bracketSize_eq _
  have h2K : 2 ^ Nat.clog 2 shuffled.length
      = 2 * 2 ^ (Nat.clog 2 shuffled.length - 1) := by
    conv =>
      lhs
      rw [show Nat.clog 2 shuffled.length = (Nat.clog 2 shuffled.length - 1) + 1 by omega]
    rw [Nat.pow_succ]
    ring
  have hnbn : bracketSize shuffled.length - shuffled.length ≤ shuffled.length := by omega
  have htklen :
      (shuffled.take (bracketSize shuffled.length - shuffled.length)).length
        = bracketSize shuffled.length - shuffled.length := by
    rw [List.length_take]
    omega
  have hdrlen :
      (shuffled.drop (bracketSize shuffled.length - shuffled.length)).length
        = shuffled.length - (bracketSize shuffled.length - shuffled.length) :=
    List.length_drop _ _
  have heven : 2 ∣ (shuffled.drop (bracketSize shuffled.length - shuffled.length)).length := by
    rw [hdrlen]
    omega
  obtain ⟨byeMs, hbEq, hbFa⟩ :=
    buildByes_spec tid (shuffled.take (bracketSize shuffled.length - shuffled.length)) 1 0
  rw [htklen, Nat.zero_add] at hbEq hbFa
  have hbLen : byeMs.length = bracketSize shuffled.length - shuffled.length := by
    have hl := List.Forall₂.length_eq hbFa
    rw [htklen] at hl
    omega
  obtain ⟨pairMs, hpEq, hpLen, hpSlots, hpShape⟩ :=
    buildPairs_spec tid (shuffled.drop (bracketSize shuffled.length - shuffled.length))
      ((bracketSize shuffled.length - shuffled.length) + 1)
      (bracketSize shuffled.length - shuffled.length) heven
  rw [hdrlen] at hpEq hpLen hpShape
  have hprevR1 : ∀ s ∈ (byeMs ++ pairMs).map (fun m => m.id),
      ∃ j, j < (bracketSize shuffled.length - shuffled.length)
        + (shuffled.length - (bracketSize shuffled.length - shuffled.length)) / 2 ∧
        s = mkMatchId j := by
    intro s hs
    obtain ⟨m, hm, hms⟩ := List.mem_map.mp hs
    rcases List.mem_append.mp hm with hm | hm
    · obtain ⟨p, hp, hsh⟩ := forall2_mem_right_str hbFa m hm
      obtain ⟨_, _, _, _, _, _, _, j, hj1, hj2, hj3⟩ := hsh
      exact ⟨j, by omega, hms ▸ hj3⟩
    · obtain ⟨⟨_, _, _, _, j, hj1, hj2, hj3⟩, _⟩ := hpShape m hm
      exact ⟨j, by omega, hms ▸ hj3⟩
  have hadvLen :
      (shuffled.take (bracketSize shuffled.length - shuffled.length)
        ++ pairMs.map (fun m => m.id)).length
        = 2 ^ (Nat.clog 2 shuffled.length - 1) := by
    rw [List.length_append, htklen, List.length_map, hpLen]
    omega
  have hfuel : Nat.clog 2 shuffled.length - 1 < bracketSize shuffled.length := by
    have := Nat.lt_two_pow (Nat.clog 2 shuffled.length)
    omega
  obtain ⟨msT, rest, rsNew, hrEq, hrFa, hrLen, hrShape, hrsLen, hrSlots⟩ :=
    buildRounds_spec tid (Nat.clog 2 shuffled.length - 1) (bracketSize shuffled.length)
      (shuffled.take (bracketSize shuffled.length - shuffled.length)
        ++ pairMs.map (fun m => m.id))
      ((byeMs ++ pairMs).map (fun m => m.id)) 1 (byeMs ++ pairMs)
      [(1, (byeMs ++ pairMs).map (fun m => m.id))]
      ((bracketSize shuffled.length - shuffled.length)
        + (shuffled.length - (bracketSize shuffled.length - shuffled.length)) / 2)
      hadvLen hfuel hprevR1
  have hgen : generateSE shuffled tid
      = .ok (msT ++ rest, [(1, (byeMs ++ pairMs).map (fun m => m.id))] ++ rsNew) := by
    have e0 : generateSE shuffled tid
        = buildRounds tid (bracketSize shuffled.length)
            (shuffled.take (bracketSize shuffled.length - shuffled.length)
              ++ pairMs.map (fun m => m.id))
            ((byeMs ++ pairMs).map (fun m => m.id)) 1 (byeMs ++ pairMs)
            [(1, (byeMs ++ pairMs).map (fun m => m.id))]
            ((bracketSize shuffled.length - shuffled.length)
              + (shuffled.length - (bracketSize shuffled.length - shuffled.length)) / 2) := by
      simp only [generateSE]
      rw [if_neg (show ¬ shuffled.length < 2 by omega)]
      rw [hbEq]
      simp only [hpEq]
    rw [e0, hrEq]
  obtain ⟨byeT, pairT, heqT, hfbye, hfpair⟩ := forall2_append_split hrFa
  have hbyeTLen : byeT.length = bracketSize shuffled.length - shuffled.length := by
    have := List.Forall₂.length_eq hfbye
    omega
  have hpairTLen : pairT.length = shuffled.length - bracketSize shuffled.length / 2 := by
    have := List.Forall₂.length_eq hfpair
    omega
  refine ⟨msT ++ rest, [(1, (byeMs ++ pairMs).map (fun m => m.id))] ++ rsNew,
    byeT, pairT, rest, hgen, ?_, hbyeTLen, hpairTLen, ?_, ?_, ?_, ?_, ?_, ?_⟩
  · rw [heqT, List.append_assoc]
  · rw [hrLen]
    omega
  · simp only [List.length_append, List.length_cons, List.length_nil, hrsLen]
    omega
  · refine forall2_str_trans ?_ hbFa hfbye
    intro p a b hR hL
    obtain ⟨r1, r2, r3, r4, r5, _⟩ := hR
    obtain ⟨e1, e2, e3, e4, e5, e6, e7, e8, e9, e10⟩ := hL
    exact ⟨e5.trans r1, e6.trans r2, e7.trans r3, e10.trans r4, e3.trans r5⟩
  · intro m hm
    obtain ⟨a, ha, hL⟩ := forall2_mem_right hfpair m hm
    obtain ⟨⟨p1, p2, p3, _⟩, _⟩ := hpShape a ha
    obtain ⟨e1, e2, e3, e4, e5, e6, e7, e8, e9, e10⟩ := hL
    exact ⟨e10.trans p1, e3.trans p2, e7.trans p3⟩
  · intro m hm
    obtain ⟨q1, q2, q3, _⟩ := hrShape m hm
    exact ⟨q1, q2, by omega⟩
  · rw [slotList_append, ← slotList_linkEq hrFa, slotList_append,
      slotList_of_byeShape hbFa, hpSlots]
    rw [hadvLen] at hrSlots
    by_cases hKc : 2 ≤ Nat.clog 2 shuffled.length
    · have hone : 1 < 2 ^ (Nat.clog 2 shuffled.length - 1) := by
        have h1 : 2 ^ 1 ≤ 2 ^ (Nat.clog 2 shuffled.length - 1) :=
          Nat.pow_le_pow_right (by omega) (by omega)
        omega
      rw [if_pos hone] at hrSlots
      rw [hrSlots, List.filter_append]
      have hTake : (shuffled.take (bracketSize shuffled.length - shuffled.length)).filter
          (fun s => ! ((byeMs ++ pairMs).map (fun m => m.id)).contains s)
          = shuffled.take (bracketSize shuffled.length - shuffled.length) := by
        apply filter_all_true
        intro p hp
        have hpm : p ∈ shuffled := List.take_subset _ _ hp
        have hcf : ((byeMs ++ pairMs).map (fun m => m.id)).contains p = false := by
          apply contains_false_of_forall
          intro x hx hxp
          obtain ⟨j, _, hj⟩ := hprevR1 x hx
          exact hf p hpm j (by rw [← hxp, hj])
        rw [hcf]
        rfl
      have hPair : (pairMs.map (fun m => m.id)).filter
          (fun s => ! ((byeMs ++ pairMs).map (fun m => m.id)).contains s) = [] := by
        apply filter_all_false
        intro s hs
        have hmem : s ∈ (byeMs ++ pairMs).map (fun m => m.id) := by
          rw [List.map_append]
          exact List.mem_append_right _ hs
        rw [contains_true_of_mem hmem]
        rfl
      rw [hTake, hPair, List.append_nil, List.take_append_drop]
    · have hKe : Nat.clog 2 shuffled.length = 1 := by omega
      have hL2 : shuffled.length = 2 := by
        rw [hKe] at hn2K
        omega
      have hone : ¬ 1 < 2 ^ (Nat.clog 2 shuffled.length - 1) := by
        rw [hKe]
        omega
      rw [if_neg hone] at hrSlots
      rw [hrSlots, List.append_nil]
      have hnb0 : bracketSize shuffled.length - shuffled.length = 0 := by
        rw [hBS, hKe, hL2]
        rfl
      rw [hnb0]
      simp

/-! ### Result projections used by closed counterexample statements -/

/-- The match list of a generation result (empty on error). -/
def matchesOfResult (r : Except PyErr (List MatchModel × List (Nat × List String))) :
    List MatchModel :=
  match r with
  | .ok (ms, _) => ms
  | .error _ => []

/-- The slot assignments of a generation result (empty on error). -/
def slotsOfResult (r : Except PyErr (List MatchModel × List (Nat × List String))) :
    List String :=
  match r with
  | .ok (ms, _) => slotList ms
  | .error _ => []

/-- Whether a generation result is a success. -/
def okResult (r : Except PyErr (List MatchModel × List (Nat × List String))) : Bool :=
  match r with
  | .ok _ => true
  | .error _ => false

/-! ### Claim C1 -/

/-- Claim C1: the claim asserts that `_generate_single_elimination_matches`
executes without an unexpected runtime error for every player list with at
least two players.  In fact the dead-draft pass always evaluates the unbound
name `uuid4` (line 223), so the function raises NameError on every such
input: the code contradicts the claim (and its own test suite, which calls
the function expecting success), a code bug. -/
theorem c1_generate_always_nameError (playerIds : List String) (tid : String)
    (h : 2 ≤ playerIds.length) :
    genFullModel playerIds tid = .error .nameError := by
  rw [genFullModel, if_neg (by omega)]
  have hl : pyLookup "uuid4" = .error .nameError := by rfl
  rw [hl]

/-- Witness for C1 at the concrete input `["a", "b"]`. -/
theorem c1_generate_always_nameError_witness :
    2 ≤ (["a", "b"] : List String).length ∧
    genFullModel ["a", "b"] "t" = .error .nameError :=
  ⟨by decide, c1_generate_always_nameError ["a", "b"] "t" (by decide)⟩

/-! ### Claim C2 -/

/-- Claim C2: for every player list of n ≥ 2 unique players (modelled by the
post-shuffle order, with ids distinct from generated match ids), the
generator produces exactly bracketSize(n) − 1 matches and log2(bracketSize(n))
rounds, where bracketSize(n) is the smallest power of two ≥ n; round 1
contains exactly bracketSize(n)/2 matches, bracketSize(n) − n of them BYE
and the rest PENDING. -/
theorem c2_counts (shuffled : List String) (tid : String)
    (h2 : 2 ≤ shuffled.length) (hf : FreshPlayers shuffled) :
    ∃ ms rs, generateSE shuffled tid = .ok (ms, rs) ∧
      ms.length = bracketSize shuffled.length - 1 ∧
      rs.length = Nat.log 2 (bracketSize shuffled.length) ∧
      (ms.filter (fun m => m.round_number == 1)).length
        = bracketSize shuffled.length / 2 ∧
      (ms.filter (fun m => m.round_number == 1 && m.status == MatchStatus.BYE)).length
        = bracketSize shuffled.length - shuffled.length ∧
      (ms.filter (fun m => m.round_number == 1 && m.status == MatchStatus.PENDING)).length
        = bracketSize shuffled.length / 2
          - (bracketSize shuffled.length - shuffled.length) ∧
      shuffled.length ≤ bracketSize shuffled.length ∧
      (∃ k, bracketSize shuffled.length = 2 ^ k) ∧
      (∀ j, shuffled.length ≤ 2 ^ j → bracketSize shuffled.length ≤ 2 ^ j) := by
  have hK1 : 1 ≤ Nat.clog 2 shuffled.length := (bracketSize_lt_two_mul _ h2).2
  have hltn : 2 ^ (Nat.clog 2 shuffled.length - 1) < shuffled.length :=
    (bracketSize_lt_two_mul _ h2).1
  have hn2K : shuffled.length ≤ 2 ^ Nat.clog 2 shuffled.length :=
    (Nat.le_pow_iff_clog_le (by omega)).mpr le_rfl
  have hBS : bracketSize shuffled.length = 2 ^ Nat.clog 2 shuffled.length :=
    bracketSize_eq _
  have h2K : 2 ^ Nat.clog 2 shuffled.length
      = 2 * 2 ^ (Nat.clog 2 shuffled.length - 1) := by
    conv =>
      lhs
      rw [show Nat.clog 2 shuffled.length = (Nat.clog 2 shuffled.length - 1) + 1 by omega]
    rw [Nat.pow_succ]
    ring
  obtain ⟨ms, rs, byeT, pairT, rest, hgen, hdec, hbl, hpl, hrl, hrsl, hbFa, hpSh, hrSh, _⟩ :=
    generateSE_spec shuffled tid h2 hf
  have hbyeFacts : ∀ m ∈ byeT, m.status = MatchStatus.BYE ∧ m.round_number = 1 := by
    intro m hm
    obtain ⟨p, _, hB⟩ := forall2_mem_right_str hbFa m hm
    exact ⟨hB.2.2.2.1, hB.2.2.2.2⟩
  refine ⟨ms, rs, hgen, ?_, ?_, ?_, ?_, ?_, le_bracketSize _,
    ⟨Nat.clog 2 shuffled.length, hBS⟩, ?_⟩
  · rw [hdec]
    simp only [List.length_append]
    omega
  · rw [hrsl, hBS, Nat.log_pow (by omega)]
  · rw [hdec, List.filter_append, List.filter_append]
    rw [filter_all_true (fun m hm => beq_iff_eq.mpr (hbyeFacts m hm).2),
      filter_all_true (fun m hm => beq_iff_eq.mpr (hpSh m hm).2.1),
      filter_all_false (fun m hm =>
        beq_eq_false_iff_ne.mpr (by have := (hrSh m hm).2.2; omega))]
    simp only [List.length_append, List.length_nil]
    omega
  · rw [hdec, List.filter_append, List.filter_append]
    rw [filter_all_true (fun m hm => by
        rw [Bool.and_eq_true]
        exact
        ⟨beq_iff_eq.mpr (hbyeFacts m hm).2, beq_iff_eq.mpr (hbyeFacts m hm).1⟩),
      filter_all_false (fun m hm => by
        rw [show (m.status == MatchStatus.BYE) = false from
          beq_eq_false_iff_ne.mpr (by rw [(hpSh m hm).1]; decide), Bool.and_false]),
      filter_all_false (fun m hm => by
        rw [show (m.round_number == 1) = false from
          beq_eq_false_iff_ne.mpr (by have := (hrSh m hm).2.2; omega), Bool.false_and])]
    simp only [List.length_append, List.length_nil]
    omega
  · rw [hdec, List.filter_append, List.filter_append]
    rw [filter_all_false (fun m hm => by
        rw [show (m.status == MatchStatus.PENDING) = false from
          beq_eq_false_iff_ne.mpr (by rw [(hbyeFacts m hm).1]; decide), Bool.and_false]),
      filter_all_true (fun m hm => by
        rw [Bool.and_eq_true]
        exact ⟨beq_iff_eq.mpr (hpSh m hm).2.1, beq_iff_eq.mpr (hpSh m hm).1⟩),
      filter_all_false (fun m hm => by
        rw [show (m.round_number == 1) = false from
          beq_eq_false_iff_ne.mpr (by have := (hrSh m hm).2.2; omega), Bool.false_and])]
    simp only [List.length_append, List.length_nil]
    omega
  · intro j hj
    rw [hBS]
    exact Nat.pow_le_pow_right (by omega) ((Nat.le_pow_iff_clog_le (by omega)).mp hj)

/-- Witness for C2 at the concrete input `["aa", "bb", "cc"]`. -/
theorem c2_counts_witness :
    (2 ≤ (["aa", "bb", "cc"] : List String).length ∧ FreshPlayers ["aa", "bb", "cc"]) ∧
    (∃ ms rs, generateSE ["aa", "bb", "cc"] "t" = .ok (ms, rs) ∧
      ms.length = bracketSize (["aa", "bb", "cc"] : List String).length - 1 ∧
      rs.length = Nat.log 2 (bracketSize (["aa", "bb", "cc"] : List String).length) ∧
      (ms.filter (fun m => m.round_number == 1)).length
        = bracketSize (["aa", "bb", "cc"] : List String).length / 2 ∧
      (ms.filter (fun m => m.round_number == 1 && m.status == MatchStatus.BYE)).length
        = bracketSize (["aa", "bb", "cc"] : List String).length
          - (["aa", "bb", "cc"] : List String).length ∧
      (ms.filter (fun m => m.round_number == 1 && m.status == MatchStatus.PENDING)).length
        = bracketSize (["aa", "bb", "cc"] : List String).length / 2
          - (bracketSize (["aa", "bb", "cc"] : List String).length
            - (["aa", "bb", "cc"] : List String).length) ∧
      (["aa", "bb", "cc"] : List String).length
        ≤ bracketSize (["aa", "bb", "cc"] : List String).length ∧
      (∃ k, bracketSize (["aa", "bb", "cc"] : List String).length = 2 ^ k) ∧
      (∀ j, (["aa", "bb", "cc"] : List String).length ≤ 2 ^ j →
        bracketSize (["aa", "bb", "cc"] : List String).length ≤ 2 ^ j)) :=
  ⟨⟨by decide, freshPlayers_of_short _ (by decide)⟩,
    c2_counts ["aa", "bb", "cc"] "t" (by decide) (freshPlayers_of_short _ (by decide))⟩

/-! ### Claim C3 -/

/-- Claim C3 counterexample: the builder does reshuffle.  `random.shuffle`
at line 349 may leave the caller order `["aa", "bb"]` unchanged in one run
and swap it in another; the two post-shuffle orders are permutations of the
same caller-supplied list, yet generation produces different brackets, so
the output is not a function of the caller-supplied order. -/
theorem c3_no_reshuffle_counterexample :
    (["bb", "aa"] : List String).Perm ["aa", "bb"] ∧
    matchesOfResult (generateSE ["aa", "bb"] "t")
      ≠ matchesOfResult (generateSE ["bb", "aa"] "t") := by
  constructor
  · exact List.Perm.swap "aa" "bb" []
  · decide

/-- Claim C3 amended: the builder shuffles the player list in place
(line 349); given the post-shuffle order the output is a deterministic pure
function of it, and byes are assigned to the first
bracketSize − n players of that shuffled order, each as a round-1 BYE match
with that player recorded as winner. -/
theorem c3_byes_follow_shuffled_order (shuffled : List String) (tid : String)
    (h2 : 2 ≤ shuffled.length) (hf : FreshPlayers shuffled) :
    ∃ ms rs, generateSE shuffled tid = .ok (ms, rs) ∧
      List.Forall₂ ByePlayerOf
        (shuffled.take (bracketSize shuffled.length - shuffled.length))
        (ms.take (bracketSize shuffled.length - shuffled.length)) := by
  obtain ⟨ms, rs, byeT, pairT, rest, hgen, hdec, hbl, _, _, _, hbFa, _, _, _⟩ :=
    generateSE_spec shuffled tid h2 hf
  refine ⟨ms, rs, hgen, ?_⟩
  have htk : ms.take (bracketSize shuffled.length - shuffled.length) = byeT := by
    rw [hdec, ← hbl, List.append_assoc, List.take_left]
  rw [htk]
  exact hbFa

/-- Witness for the amended C3 at the concrete input `["aa", "bb", "cc"]`. -/
theorem c3_byes_follow_shuffled_order_witness :
    (2 ≤ (["aa", "bb", "cc"] : List String).length ∧ FreshPlayers ["aa", "bb", "cc"]) ∧
    (∃ ms rs, generateSE ["aa", "bb", "cc"] "t" = .ok (ms, rs) ∧
      List.Forall₂ ByePlayerOf
        ((["aa", "bb", "cc"] : List String).take
          (bracketSize (["aa", "bb", "cc"] : List String).length
            - (["aa", "bb", "cc"] : List String).length))
        (ms.take (bracketSize (["aa", "bb", "cc"] : List String).length
          - (["aa", "bb", "cc"] : List String).length))) :=
  ⟨⟨by decide, freshPlayers_of_short _ (by decide)⟩,
    c3_byes_follow_shuffled_order ["aa", "bb", "cc"] "t" (by decide)
      (freshPlayers_of_short _ (by decide))⟩

/-! ### Claim C4 -/

/-- Claim C4 counterexample: with three players the first (bye) player
appears twice among the build-time player-slot assignments — once in its
round-1 BYE match and once pre-filled into the next round — so the multiset
of direct slot assignments does not contain each input player exactly
once. -/
theorem c4_each_player_once_counterexample :
    okResult (generateSE ["aa", "bb", "cc"] "t") = true ∧
    (slotsOfResult (generateSE ["aa", "bb", "cc"] "t")).count "aa" = 2 ∧
    (["aa", "bb", "cc"] : List String).count "aa" = 1 := by
  refine ⟨?_, ?_, by decide⟩ <;> decide

/-- Claim C4 amended: the direct slot assignments are the input players in
order followed by one extra copy of each bye player (the first
bracketSize − n players of the shuffled order, pre-filled into the next
round); so each non-bye player occurs exactly once and each bye player
exactly twice. -/
theorem c4_slot_multiset (shuffled : List String) (tid : String)
    (h2 : 2 ≤ shuffled.length) (hf : FreshPlayers shuffled) :
    ∃ ms rs, generateSE shuffled tid = .ok (ms, rs) ∧
      slotList ms
        = shuffled ++ shuffled.take (bracketSize shuffled.length - shuffled.length) ∧
      (∀ p, (slotList ms).count p
        = shuffled.count p
          + (shuffled.take (bracketSize shuffled.length - shuffled.length)).count p) := by
  obtain ⟨ms, rs, _, _, _, hgen, _, _, _, _, _, _, _, _, hslots⟩ :=
    generateSE_spec shuffled tid h2 hf
  refine ⟨ms, rs, hgen, hslots, fun p => ?_⟩
  rw [hslots, List.count_append]

/-- Witness for the amended C4 at the concrete input `["aa", "bb", "cc"]`. -/
theorem c4_slot_multiset_witness :
    (2 ≤ (["aa", "bb", "cc"] : List String).length ∧ FreshPlayers ["aa", "bb", "cc"]) ∧
    (∃ ms rs, generateSE ["aa", "bb", "cc"] "t" = .ok (ms, rs) ∧
      slotList ms
        = ["aa", "bb", "cc"]
          ++ (["aa", "bb", "cc"] : List String).take
            (bracketSize (["aa", "bb", "cc"] : List String).length
              - (["aa", "bb", "cc"] : List String).length) ∧
      (∀ p, (slotList ms).count p
        = (["aa", "bb", "cc"] : List String).count p
          + ((["aa", "bb", "cc"] : List String).take
            (bracketSize (["aa", "bb", "cc"] : List String).length
              - (["aa", "bb", "cc"] : List String).length)).count p)) :=
  ⟨⟨by decide, freshPlayers_of_short _ (by decide)⟩,
    c4_slot_multiset ["aa", "bb", "cc"] "t" (by decide)
      (freshPlayers_of_short _ (by decide))⟩

/-! ### Claim C5 -/

/-- Claim C5: the claim (and the test suite, which asserts
`bye_match.next_match_id == final_match.id` in its three-player fixture)
requires every non-final match to carry a `next_match_id` one round ahead,
with the final match the only one left at null.  The generator never links
BYE matches: with three players the bracket has two matches whose
`next_match_id` is null, one of which is the round-1 BYE match — the code
contradicts the claim and its own tests, a code bug. -/
theorem c5_bye_matches_unlinked :
    okResult (generateSE ["aa", "bb", "cc"] "t") = true ∧
    ((matchesOfResult (generateSE ["aa", "bb", "cc"] "t")).filter
      (fun m => m.next_match_id == none)).length = 2 ∧
    ((matchesOfResult (generateSE ["aa", "bb", "cc"] "t")).filter
      (fun m => m.next_match_id == none && m.round_number == 1
        && m.status == MatchStatus.BYE)).length = 1 := by
  refine ⟨?_, ?_, ?_⟩ <;> decide

/-! ### Scan lemmas for record_match_result -/

theorem recordOnMatches_notFound (s1 s2 : Int) (mid : String) :
    ∀ (ms : List MatchModel), (∀ x ∈ ms, (x.id == mid) = false) →
      recordOnMatches s1 s2 mid ms = .error .matchNotFound
  | [], _ => rfl
  | x :: rest, h => by
    rw [recordOnMatches, if_neg (by simp [h x (List.mem_cons_self x rest)]),
      recordOnMatches_notFound s1 s2 mid rest
        (fun y hy => h y (List.mem_cons_of_mem x hy))]

theorem recordOnMatches_found (s1 s2 : Int) (mid : String) :
    ∀ (pre : List MatchModel) (m : MatchModel) (post : List MatchModel),
      (∀ x ∈ pre, (x.id == mid) = false) → (m.id == mid) = true →
      recordOnMatches s1 s2 mid (pre ++ m :: post)
        = if m.status ≠ MatchStatus.PENDING then .error .notPending
          else if falsyStr m.player1_id || falsyStr m.player2_id then
            .error .missingPlayers
          else if s1 == s2 then .error .equalScores
          else .ok (pre ++ decideMatch m s1 s2 :: post, decideMatch m s1 s2)
  | [], m, post, _, hm => by
    rw [List.nil_append, recordOnMatches, if_pos (by simp_all)]
    rfl
  | x :: pre, m, post, hpre, hm => by
    rw [List.cons_append, recordOnMatches,
      if_neg (by simp [hpre x (List.mem_cons_self x pre)]),
      recordOnMatches_found s1 s2 mid pre m post
        (fun y hy => hpre y (List.mem_cons_of_mem x hy)) hm]
    by_cases h1 : m.status ≠ MatchStatus.PENDING
    · rw [if_pos h1, if_pos h1]
    · rw [if_neg h1, if_neg h1]
      by_cases h2 : falsyStr m.player1_id || falsyStr m.player2_id
      · rw [if_pos h2, if_pos h2]
      · rw [if_neg h2, if_neg h2]
        by_cases h3 : s1 == s2
        · rw [if_pos h3, if_pos h3]
        · rw [if_neg h3, if_neg h3, List.cons_append]

theorem advanceList_notFound (m1 : MatchModel) (nid : String) :
    ∀ (ms : List MatchModel), (∀ x ∈ ms, (x.id == nid) = false) →
      advanceList m1 nid ms = .error .consistencyError
  | [], _ => rfl
  | x :: rest, h => by
    rw [advanceList, if_neg (by simp [h x (List.mem_cons_self x rest)]),
      advanceList_notFound m1 nid rest (fun y hy => h y (List.mem_cons_of_mem x hy))]

theorem advanceList_found (m1 : MatchModel) (nid : String) :
    ∀ (pre : List MatchModel) (tm : MatchModel) (post : List MatchModel),
      (∀ x ∈ pre, (x.id == nid) = false) → (tm.id == nid) = true →
      advanceList m1 nid (pre ++ tm :: post)
        = match m1.winner_to_player_slot with
          | some 1 => .ok (pre ++ { tm with player1_id := m1.winner_id } :: post)
          | some 2 => .ok (pre ++ { tm with player2_id := m1.winner_id } :: post)
          | _ => .error .invalidSlot
  | [], tm, post, _, htm => by
    rw [List.nil_append, advanceList, if_pos htm]
    rcases m1.winner_to_player_slot with _ | (_ | (_ | (_ | k))) <;> rfl
  | x :: pre, tm, post, hpre, htm => by
    rw [List.cons_append, advanceList,
      if_neg (by simp [hpre x (List.mem_cons_self x pre)]),
      advanceList_found m1 nid pre tm post
        (fun y hy => hpre y (List.mem_cons_of_mem x hy)) htm]
    rcases m1.winner_to_player_slot with _ | (_ | (_ | (_ | k))) <;> rfl

/-- Advancement only writes player slots: id and status of every match are
preserved position-wise. -/
def idStatusEq (a b : MatchModel) : Prop :=
  b.id = a.id ∧ b.status = a.status

theorem advanceList_shape (m1 : MatchModel) (nid : String) :
    ∀ (ms ms2 : List MatchModel), advanceList m1 nid ms = .ok ms2 →
      List.Forall₂ idStatusEq ms ms2
  | [], ms2, h => by simp [advanceList] at h
  | tm :: rest, ms2, h => by
    rw [advanceList] at h
    by_cases htm : (tm.id == nid) = true
    · rw [if_pos htm] at h
      match hslot : m1.winner_to_player_slot with
      | some 1 =>
        rw [hslot] at h
        cases h
        exact List.Forall₂.cons ⟨rfl, rfl⟩ (List.forall₂_same.mpr fun x _ => ⟨rfl, rfl⟩)
      | some 2 =>
        rw [hslot] at h
        cases h
        exact List.Forall₂.cons ⟨rfl, rfl⟩ (List.forall₂_same.mpr fun x _ => ⟨rfl, rfl⟩)
      | some 0 => rw [hslot] at h; cases h
      | some (k + 3) => rw [hslot] at h; cases h
      | none => rw [hslot] at h; cases h
    · rw [if_neg htm] at h
      match hrec : advanceList m1 nid rest with
      | .ok restOut =>
        rw [hrec] at h
        cases h
        exact List.Forall₂.cons ⟨rfl, rfl⟩ (advanceList_shape m1 nid rest restOut hrec)
      | .error e => rw [hrec] at h; cases h

theorem recordInBracketList_found (sink : StatusSink) (ts : List Tournament)
    (tid matchId : String) (p1s p2s : Int) :
    ∀ (bpre : List BracketModel) (b : BracketModel) (bpost : List BracketModel),
      (∀ x ∈ bpre, (x.tournament_id == tid) = false) →
      (b.tournament_id == tid) = true →
      recordInBracketList sink ts tid matchId p1s p2s (bpre ++ b :: bpost)
        = match processBracket sink ts b tid matchId p1s p2s with
          | .ok (bOut, tsOut, m1) => .ok (bpre ++ bOut :: bpost, tsOut, m1)
          | .error e => .error e
  | [], b, bpost, _, hb => by
    rw [List.nil_append, recordInBracketList, if_pos hb]
    rcases hpb : processBracket sink ts b tid matchId p1s p2s with e | ⟨bOut, tsOut, m1⟩ <;> rfl
  | x :: bpre, b, bpost, hpre, hb => by
    rw [List.cons_append, recordInBracketList,
      if_neg (by simp [hpre x (List.mem_cons_self x bpre)]),
      recordInBracketList_found sink ts tid matchId p1s p2s bpre b bpost
        (fun y hy => hpre y (List.mem_cons_of_mem x hy)) hb]
    rcases hpb : processBracket sink ts b tid matchId p1s p2s with e | ⟨bOut, tsOut, m1⟩ <;>
      rfl

theorem setStatusFirst_lookup :
    ∀ (ts : List Tournament) (tid status : String) (t : Tournament),
      getTournamentById ts tid = some t →
      ∃ ts2, setStatusFirst ts tid status = some ts2 ∧
        getTournamentById ts2 tid = some { t with status := status }
  | [], tid, status, t, ht => by simp [getTournamentById] at ht
  | x :: rest, tid, status, t, ht => by
    rw [getTournamentById, List.find?] at ht
    by_cases hx : (x.id == tid) = true
    · rw [hx] at ht
      simp only [Option.some.injEq] at ht
      subst ht
      refine ⟨{ x with status := status } :: rest, ?_, ?_⟩
      · rw [setStatusFirst, if_pos hx]
      · rw [getTournamentById, List.find?]
        simp only [hx]
    · simp only [Bool.not_eq_true] at hx
      rw [hx] at ht
      obtain ⟨ts2, hset, hl⟩ :=
        setStatusFirst_lookup rest tid status t ht
      refine ⟨x :: ts2, ?_, ?_⟩
      · rw [setStatusFirst, hx]
        simp only [Bool.false_eq_true, if_false, hset]
        rfl
      · rw [getTournamentById, List.find?, hx]
        exact hl

/-- The concrete tournament service status update: always succeeds for an
allowed status, and updates exactly the first tournament with the id,
preserving every other field. -/
theorem defaultSink_lookup (ts : List Tournament) (tid status : String)
    (t : Tournament) (ht : getTournamentById ts tid = some t)
    (hs : allowedStatuses.contains status = true) :
    ∃ ts2, defaultSink ts tid status = .ok ts2 ∧
      getTournamentById ts2 tid = some { t with status := status } := by
  obtain ⟨ts2, hset, hl⟩ := setStatusFirst_lookup ts tid status t ht
  refine ⟨ts2, ?_, hl⟩
  rw [defaultSink, if_pos hs, hset]

/-! ### Facts about decideMatch -/

theorem decideMatch_id (m : MatchModel) (s1 s2 : Int) :
    (decideMatch m s1 s2).id = m.id := by
  rw [decideMatch]
  split
  · rfl
  · split <;> rfl

theorem decideMatch_next (m : MatchModel) (s1 s2 : Int) :
    (decideMatch m s1 s2).next_match_id = m.next_match_id := by
  rw [decideMatch]
  split
  · rfl
  · split <;> rfl

theorem decideMatch_slot (m : MatchModel) (s1 s2 : Int) :
    (decideMatch m s1 s2).winner_to_player_slot = m.winner_to_player_slot := by
  rw [decideMatch]
  split
  · rfl
  · split <;> rfl

theorem decideMatch_score1 (m : MatchModel) (s1 s2 : Int) :
    (decideMatch m s1 s2).score_player1 = some s1 := by
  rw [decideMatch]
  split
  · rfl
  · split <;> rfl

theorem decideMatch_score2 (m : MatchModel) (s1 s2 : Int) :
    (decideMatch m s1 s2).score_player2 = some s2 := by
  rw [decideMatch]
  split
  · rfl
  · split <;> rfl

theorem decideMatch_win1 (m : MatchModel) (s1 s2 : Int) (h : s1 > s2) :
    (decideMatch m s1 s2).status = .PLAYER1_WIN ∧
    (decideMatch m s1 s2).winner_id = m.player1_id := by
  rw [decideMatch, if_pos h]
  exact ⟨rfl, rfl⟩

theorem decideMatch_win2 (m : MatchModel) (s1 s2 : Int) (h : s2 > s1) :
    (decideMatch m s1 s2).status = .PLAYER2_WIN ∧
    (decideMatch m s1 s2).winner_id = m.player2_id := by
  rw [decideMatch, if_neg (by omega), if_pos h]
  exact ⟨rfl, rfl⟩

theorem decideMatch_winner_nonfalsy (m : MatchModel) (s1 s2 : Int)
    (hp1 : falsyStr m.player1_id = false) (hp2 : falsyStr m.player2_id = false)
    (hs : s1 ≠ s2) : falsyStr (decideMatch m s1 s2).winner_id = false := by
  by_cases h : s1 > s2
  · rw [(decideMatch_win1 m s1 s2 h).2]
    exact hp1
  · rw [(decideMatch_win2 m s1 s2 (by omega)).2]
    exact hp2

theorem decideMatch_not_pending (m : MatchModel) (s1 s2 : Int) (hs : s1 ≠ s2) :
    (decideMatch m s1 s2).status ≠ MatchStatus.PENDING := by
  by_cases h : s1 > s2
  · rw [(decideMatch_win1 m s1 s2 h).1]
    decide
  · rw [(decideMatch_win2 m s1 s2 (by omega)).1]
    decide

/-- Dispatch of `record_match_result` to the bracket containing the
tournament, after the tournament and admin checks pass. -/
theorem recordMatchResult_found (sink : StatusSink) (st : St)
    (tid matchId uid : String) (s1 s2 : Int) (t : Tournament)
    (bpre : List BracketModel) (b : BracketModel) (bpost : List BracketModel)
    (hts : getTournamentById st.tournaments tid = some t)
    (hadmin : t.admin_id = uid)
    (hbr : st.brackets = bpre ++ b :: bpost)
    (hbpre : ∀ x ∈ bpre, (x.tournament_id == tid) = false)
    (hbtid : (b.tournament_id == tid) = true) :
    recordMatchResult sink st tid matchId s1 s2 uid
      = match processBracket sink st.tournaments b tid matchId s1 s2 with
        | .ok (bOut, tsOut, m1) =>
          .ok ({ tournaments := tsOut, brackets := bpre ++ bOut :: bpost }, m1)
        | .error e => .error e := by
  simp only [recordMatchResult, hts]
  rw [if_neg (fun hc => hc hadmin)]
  rw [hbr, recordInBracketList_found sink st.tournaments tid matchId s1 s2 bpre b bpost
    hbpre hbtid]
  rcases hpb : processBracket sink st.tournaments b tid matchId s1 s2 with e | ⟨bOut, tsOut, m1⟩ <;>
    rfl

/-- Evaluation of the bracket-processing step on a PENDING match with both
slots truthy and distinct scores: the match is decided in place and the
advancement logic runs on the updated list. -/
theorem processBracket_success (sink : StatusSink) (ts : List Tournament)
    (b : BracketModel) (tid matchId : String) (s1 s2 : Int)
    (pre : List MatchModel) (m : MatchModel) (post : List MatchModel)
    (hmdec : b.matchList = pre ++ m :: post)
    (hpre : ∀ x ∈ pre, (x.id == matchId) = false)
    (hmid : (m.id == matchId) = true)
    (hpend : m.status = MatchStatus.PENDING)
    (hp1 : falsyStr m.player1_id = false) (hp2 : falsyStr m.player2_id = false)
    (hs : s1 ≠ s2) :
    processBracket sink ts b tid matchId s1 s2
      = if falsyStr (decideMatch m s1 s2).next_match_id then
          match finalizeTournament sink ts tid with
          | .ok tsOut =>
            .ok ({ b with matchList := pre ++ decideMatch m s1 s2 :: post }, tsOut,
              decideMatch m s1 s2)
          | .error e => .error e
        else
          match advanceList (decideMatch m s1 s2)
              ((decideMatch m s1 s2).next_match_id.getD "")
              (pre ++ decideMatch m s1 s2 :: post) with
          | .ok ms2 => .ok ({ b with matchList := ms2 }, ts, decideMatch m s1 s2)
          | .error e => .error e := by
  rw [processBracket, hmdec,
    recordOnMatches_found s1 s2 matchId pre m post hpre hmid,
    if_neg (fun hc => hc hpend),
    if_neg (by rw [hp1, hp2]; decide),
    if_neg (by rw [beq_eq_false_iff_ne.mpr hs]; decide)]
  simp only [decideMatch_winner_nonfalsy m s1 s2 hp1 hp2 hs, Bool.false_eq_true, if_false]

/-! ### Claim C7 -/

/-- Claim C7: the claim asserts that an unknown matchId yields NotFound
regardless of the requester.  In the code the admin check precedes the
match lookup, so a non-admin requester gets Forbidden (PermissionError)
even when the match does not exist; only an admin requester gets the
NotFound error.  Amended accordingly. -/
theorem c7_admin_gets_notFound (sink : StatusSink) (st : St)
    (tid matchId uid : String) (s1 s2 : Int) (t : Tournament)
    (bpre : List BracketModel) (b : BracketModel) (bpost : List BracketModel)
    (hts : getTournamentById st.tournaments tid = some t)
    (hbr : st.brackets = bpre ++ b :: bpost)
    (hbpre : ∀ x ∈ bpre, (x.tournament_id == tid) = false)
    (hbtid : (b.tournament_id == tid) = true)
    (habs : ∀ x ∈ b.matchList, (x.id == matchId) = false) :
    (t.admin_id = uid →
      recordMatchResult sink st tid matchId s1 s2 uid = .error .matchNotFound) ∧
    (t.admin_id ≠ uid →
      recordMatchResult sink st tid matchId s1 s2 uid = .error .permissionError) := by
  constructor
  · intro hadmin
    rw [recordMatchResult_found sink st tid matchId uid s1 s2 t bpre b bpost
      hts hadmin hbr hbpre hbtid]
    rw [processBracket, recordOnMatches_notFound s1 s2 matchId b.matchList habs]
  · intro hadmin
    simp only [recordMatchResult, hts]
    rw [if_pos hadmin]

/-- Counterexample state for the record-side claims: one ACTIVE tournament
administered by alice, whose bracket holds a single playable final. -/
def tournamentA : Tournament :=
  { id := "t1", tournament_type := "SINGLE_ELIMINATION", admin_id := "alice",
    player_ids := ["p", "q"], status := "ACTIVE" }

/-- The single (final) match of the counterexample bracket. -/
def finalOnlyMatch : MatchModel :=
  { id := "m1", tournament_id := "t1", round_number := 1, match_in_round := 1,
    player1_id := some "p", player2_id := some "q", status := .PENDING }

/-- The counterexample bracket. -/
def bracketA : BracketModel :=
  { id := "b1", tournament_id := "t1", tournament_type := "SINGLE_ELIMINATION",
    matchList := [finalOnlyMatch], rounds_structure := [(1, ["m1"])] }

/-- The counterexample service state. -/
def sampleSt : St := { tournaments := [tournamentA], brackets := [bracketA] }

/-- Claim C7 counterexample: the match id `nope` does not exist in the
bracket, the requester `mallory` is not the admin, and the call fails with
PermissionError (Forbidden), not with a NotFound error — refuting the
claim that a missing matchId yields NotFound regardless of the requester. -/
theorem c7_counterexample :
    recordMatchResult defaultSink sampleSt "t1" "nope" 1 0 "mallory"
      = .error .permissionError ∧
    PyErr.permissionError.isNotFound = false := by
  exact ⟨rfl, rfl⟩

/-- Witness for the amended C7 at a concrete state: the admin requester gets
matchNotFound, a non-admin requester gets permissionError. -/
theorem c7_admin_gets_notFound_witness :
    (getTournamentById sampleSt.tournaments "t1" = some tournamentA ∧
      sampleSt.brackets = [] ++ bracketA :: [] ∧
      (∀ x ∈ bracketA.matchList, (x.id == "nope") = false)) ∧
    ((tournamentA.admin_id = "alice" →
      recordMatchResult defaultSink sampleSt "t1" "nope" 1 0 "alice"
        = .error .matchNotFound) ∧
    (tournamentA.admin_id ≠ "mallory" →
      recordMatchResult defaultSink sampleSt "t1" "nope" 1 0 "mallory"
        = .error .permissionError)) := by
  refine ⟨⟨rfl, rfl, by decide⟩, ?_, ?_⟩
  · exact (c7_admin_gets_notFound defaultSink sampleSt "t1" "nope" "alice" 1 0 tournamentA
      [] bracketA [] rfl rfl (by decide) (by decide) (by decide)).1
  · exact (c7_admin_gets_notFound defaultSink sampleSt "t1" "nope" "mallory" 1 0 tournamentA
      [] bracketA [] rfl rfl (by decide) (by decide) (by decide)).2

/-! ### Claim C8 -/

/-- Claim C8: for a PENDING match with both slots filled and distinct
scores, a successful recording sets the scores, decides status and winner by
the strict comparison, and, when next_match_id points at an existing match,
writes the winner into that match's slot selected by winner_to_player_slot,
leaving the target match status untouched (PENDING stays PENDING); if the
referenced next match is absent the call fails with the fatal Consistency
error. -/
theorem c8_success_and_advancement (sink : StatusSink) (st : St)
    (tid matchId uid : String) (s1 s2 : Int) (t : Tournament)
    (bpre : List BracketModel) (b : BracketModel) (bpost : List BracketModel)
    (pre : List MatchModel) (m : MatchModel) (post : List MatchModel)
    (hts : getTournamentById st.tournaments tid = some t)
    (hadmin : t.admin_id = uid)
    (hbr : st.brackets = bpre ++ b :: bpost)
    (hbpre : ∀ x ∈ bpre, (x.tournament_id == tid) = false)
    (hbtid : (b.tournament_id == tid) = true)
    (hmdec : b.matchList = pre ++ m :: post)
    (hpre : ∀ x ∈ pre, (x.id == matchId) = false)
    (hmid : (m.id == matchId) = true)
    (hpend : m.status = MatchStatus.PENDING)
    (hp1 : falsyStr m.player1_id = false) (hp2 : falsyStr m.player2_id = false)
    (hs : s1 ≠ s2) :
    (decideMatch m s1 s2).score_player1 = some s1 ∧
    (decideMatch m s1 s2).score_player2 = some s2 ∧
    (s1 > s2 → (decideMatch m s1 s2).status = .PLAYER1_WIN ∧
      (decideMatch m s1 s2).winner_id = m.player1_id) ∧
    (s2 > s1 → (decideMatch m s1 s2).status = .PLAYER2_WIN ∧
      (decideMatch m s1 s2).winner_id = m.player2_id) ∧
    (∀ nid, m.next_match_id = some nid → (nid == "") = false →
      ((∀ x ∈ b.matchList, (x.id == nid) = false) →
        recordMatchResult sink st tid matchId s1 s2 uid = .error .consistencyError) ∧
      (∀ npre tm npost slot,
        pre ++ decideMatch m s1 s2 :: post = npre ++ tm :: npost →
        (∀ x ∈ npre, (x.id == nid) = false) →
        (tm.id == nid) = true →
        m.winner_to_player_slot = some slot → slot = 1 ∨ slot = 2 →
        ∃ tmOut,
          recordMatchResult sink st tid matchId s1 s2 uid
            = .ok ({ tournaments := st.tournaments,
                     brackets :=
                       bpre ++ { b with matchList := npre ++ tmOut :: npost } :: bpost },
                   decideMatch m s1 s2) ∧
          (slot = 1 → tmOut = { tm with player1_id := (decideMatch m s1 s2).winner_id }) ∧
          (slot = 2 → tmOut = { tm with player2_id := (decideMatch m s1 s2).winner_id }) ∧
          tmOut.status = tm.status)) := by
  refine ⟨decideMatch_score1 m s1 s2, decideMatch_score2 m s1 s2,
    fun h => decideMatch_win1 m s1 s2 h, fun h => decideMatch_win2 m s1 s2 h, ?_⟩
  intro nid hnext hne
  have hrec := recordMatchResult_found sink st tid matchId uid s1 s2 t bpre b bpost
    hts hadmin hbr hbpre hbtid
  have hpb := processBracket_success sink st.tournaments b tid matchId s1 s2 pre m post
    hmdec hpre hmid hpend hp1 hp2 hs
  have hnf : falsyStr (decideMatch m s1 s2).next_match_id = false := by
    rw [decideMatch_next, hnext, falsyStr]
    exact hne
  rw [hnf] at hpb
  simp only [Bool.false_eq_true, if_false] at hpb
  have hgetD : (decideMatch m s1 s2).next_match_id.getD "" = nid := by
    rw [decideMatch_next, hnext]
    rfl
  rw [hgetD] at hpb
  constructor
  · intro habs
    have habs1 : ∀ x ∈ pre ++ decideMatch m s1 s2 :: post, (x.id == nid) = false := by
      intro x hx
      rcases List.mem_append.mp hx with hx | hx
      · exact habs x (by rw [hmdec]; exact List.mem_append_left _ hx)
      · rcases List.mem_cons.mp hx with hx | hx
        · subst hx
          rw [decideMatch_id]
          exact habs m (by rw [hmdec]; exact List.mem_append_right _ (List.mem_cons_self _ _))
        · exact habs x (by rw [hmdec]; exact List.mem_append_right _ (List.mem_cons_of_mem _ hx))
    rw [advanceList_notFound (decideMatch m s1 s2) nid _ habs1] at hpb
    rw [hrec, hpb]
  · intro npre tm npost slot hdec2 hnpre htm hslot hslot12
    have hslot1 : (decideMatch m s1 s2).winner_to_player_slot = some slot := by
      rw [decideMatch_slot]
      exact hslot
    rw [hdec2, advanceList_found (decideMatch m s1 s2) nid npre tm npost hnpre htm] at hpb
    rcases hslot12 with h1 | h2
    · subst h1
      rw [hslot1] at hpb
      refine ⟨{ tm with player1_id := (decideMatch m s1 s2).winner_id }, ?_, ?_, ?_, rfl⟩
      · rw [hrec, hpb]
      · intro _
        rfl
      · intro hc
        cases hc
    · subst h2
      rw [hslot1] at hpb
      refine ⟨{ tm with player2_id := (decideMatch m s1 s2).winner_id }, ?_, ?_, ?_, rfl⟩
      · rw [hrec, hpb]
      · intro hc
        cases hc
      · intro _
        rfl

/-- Second concrete bracket: a playable semifinal `m1` feeding slot 2 of the
final `f1`. -/
def matchA : MatchModel :=
  { id := "m1", tournament_id := "t1", round_number := 1, match_in_round := 1,
    player1_id := some "p", player2_id := some "q", status := .PENDING,
    next_match_id := some "f1", winner_to_player_slot := some 2 }

/-- The final of the two-match bracket. -/
def matchF : MatchModel :=
  { id := "f1", tournament_id := "t1", round_number := 2, match_in_round := 1,
    status := .PENDING }

/-- The two-match bracket. -/
def bracketB : BracketModel :=
  { id := "b2", tournament_id := "t1", tournament_type := "SINGLE_ELIMINATION",
    matchList := [matchA, matchF], rounds_structure := [(1, ["m1"]), (2, ["f1"])] }

/-- Service state holding the two-match bracket. -/
def sampleSt2 : St := { tournaments := [tournamentA], brackets := [bracketB] }

/-- Witness for C8 at a concrete state: recording 3-5 on `m1` decides it for
player2 and writes the winner into slot 2 of the final, which stays
PENDING. -/
theorem c8_success_and_advancement_witness :
    (getTournamentById sampleSt2.tournaments "t1" = some tournamentA ∧
      sampleSt2.brackets = [] ++ bracketB :: [] ∧
      bracketB.matchList = [] ++ matchA :: [matchF] ∧
      matchA.status = MatchStatus.PENDING ∧ (3 : Int) ≠ 5) ∧
    (∃ tmOut,
      recordMatchResult defaultSink sampleSt2 "t1" "m1" 3 5 "alice"
        = .ok ({ tournaments := sampleSt2.tournaments,
                 brackets :=
                   [] ++ { bracketB with
                     matchList := [decideMatch matchA 3 5] ++ tmOut :: [] } :: [] },
               decideMatch matchA 3 5) ∧
      (2 = 1 → tmOut = { matchF with player1_id := (decideMatch matchA 3 5).winner_id }) ∧
      (2 = 2 → tmOut = { matchF with player2_id := (decideMatch matchA 3 5).winner_id }) ∧
      tmOut.status = matchF.status) := by
  refine ⟨⟨rfl, rfl, rfl, rfl, by decide⟩, ?_⟩
  exact ((c8_success_and_advancement defaultSink sampleSt2 "t1" "m1" "alice" 3 5
      tournamentA [] bracketB [] [] matchA [matchF]
      rfl rfl rfl (by decide) (by decide) rfl (by decide) (by decide) rfl
      (by decide) (by decide) (by decide)).2.2.2.2 "f1" rfl (by decide)).2
    [decideMatch matchA 3 5] matchF [] 2 rfl (by decide) (by decide) rfl (Or.inr rfl)

/-! ### Claim C9 -/

/-- Claim C9 amended: when the final match (truthiness-unset next_match_id)
is decided and the injected tournament-status update raises a ValueError,
the decision is not rolled back — the decided match is persisted in the
bracket store — but the failure is swallowed (caught and only printed), not
reported: the call returns the decided match exactly as on success, with
the tournament store left unchanged. -/
theorem c9_final_failure_swallowed (sink : StatusSink) (st : St)
    (tid matchId uid : String) (s1 s2 : Int) (t : Tournament)
    (bpre : List BracketModel) (b : BracketModel) (bpost : List BracketModel)
    (pre : List MatchModel) (m : MatchModel) (post : List MatchModel) (e : PyErr)
    (hts : getTournamentById st.tournaments tid = some t)
    (hadmin : t.admin_id = uid)
    (hbr : st.brackets = bpre ++ b :: bpost)
    (hbpre : ∀ x ∈ bpre, (x.tournament_id == tid) = false)
    (hbtid : (b.tournament_id == tid) = true)
    (hmdec : b.matchList = pre ++ m :: post)
    (hpre : ∀ x ∈ pre, (x.id == matchId) = false)
    (hmid : (m.id == matchId) = true)
    (hpend : m.status = MatchStatus.PENDING)
    (hp1 : falsyStr m.player1_id = false) (hp2 : falsyStr m.player2_id = false)
    (hs : s1 ≠ s2)
    (hfinal : falsyStr m.next_match_id = true)
    (hsink : sink st.tournaments tid "COMPLETED" = .error e)
    (hve : e.isValueError = true) :
    recordMatchResult sink st tid matchId s1 s2 uid
      = .ok ({ tournaments := st.tournaments,
               brackets :=
                 bpre ++ { b with matchList := pre ++ decideMatch m s1 s2 :: post } :: bpost },
             decideMatch m s1 s2) := by
  have hrec := recordMatchResult_found sink st tid matchId uid s1 s2 t bpre b bpost
    hts hadmin hbr hbpre hbtid
  have hpb := processBracket_success sink st.tournaments b tid matchId s1 s2 pre m post
    hmdec hpre hmid hpend hp1 hp2 hs
  have hnf : falsyStr (decideMatch m s1 s2).next_match_id = true := by
    rw [decideMatch_next]
    exact hfinal
  rw [hnf, if_pos rfl] at hpb
  rw [finalizeTournament, hsink] at hpb
  simp only [hve, if_true] at hpb
  rw [hrec, hpb]

/-- The always-failing injected status collaborator. -/
def failingSink : StatusSink := fun _ _ _ => .error .valueError

/-- The decided final of the counterexample. -/
def decidedFinal : MatchModel :=
  { finalOnlyMatch with
    score_player1 := some 2,
    score_player2 := some 1,
    winner_id := some "p",
    status := .PLAYER1_WIN }

/-- Claim C9 counterexample: with a status collaborator that always raises
ValueError, deciding the final still returns `ok` with the decided match and
the persisted bracket — the external failure is swallowed (only printed at
line 554), not reported to the caller as the claim asserts. -/
theorem c9_counterexample :
    failingSink sampleSt.tournaments "t1" "COMPLETED" = .error .valueError ∧
    recordMatchResult failingSink sampleSt "t1" "m1" 2 1 "alice"
      = .ok ({ tournaments := [tournamentA],
               brackets := [{ bracketA with matchList := [decidedFinal] }] },
             decidedFinal) :=
  ⟨rfl, rfl⟩

/-- Witness for the amended C9 at the concrete state. -/
theorem c9_final_failure_swallowed_witness :
    (getTournamentById sampleSt.tournaments "t1" = some tournamentA ∧
      finalOnlyMatch.status = MatchStatus.PENDING ∧
      falsyStr finalOnlyMatch.next_match_id = true ∧
      failingSink sampleSt.tournaments "t1" "COMPLETED" = .error .valueError) ∧
    recordMatchResult failingSink sampleSt "t1" "m1" 2 1 "alice"
      = .ok ({ tournaments := sampleSt.tournaments,
               brackets :=
                 [] ++ { bracketA with
                   matchList := [] ++ decideMatch finalOnlyMatch 2 1 :: [] } :: [] },
             decideMatch finalOnlyMatch 2 1) := by
  refine ⟨⟨rfl, rfl, rfl, rfl⟩, ?_⟩
  exact c9_final_failure_swallowed failingSink sampleSt "t1" "m1" "alice" 2 1
    tournamentA [] bracketA [] [] finalOnlyMatch [] PyErr.valueError
    rfl rfl rfl (by decide) (by decide) rfl (by decide) (by decide) rfl
    (by decide) (by decide) (by decide) rfl rfl rfl

/-! ### Claim C10 -/

/-- Claim C10: once the tournament is ACTIVE or COMPLETED and a bracket is
stored for it, bracket generation is idempotent — the call returns the
stored bracket unchanged, without touching the state. -/
theorem c10_idempotent (st : St) (tid : String) (t : Tournament) (b : BracketModel)
    (hts : getTournamentById st.tournaments tid = some t)
    (hstatus : t.status = "ACTIVE" ∨ t.status = "COMPLETED")
    (hb : getBracketByTournamentId st.brackets tid = some b) :
    createBracketForTournament st tid = .ok (st, b) := by
  simp only [createBracketForTournament, hts]
  have hcond : (t.status == "ACTIVE" || t.status == "COMPLETED") = true := by
    rcases hstatus with h | h <;> rw [h] <;> rfl
  rw [if_pos hcond, hb]

/-- Witness for C10 at the concrete state. -/
theorem c10_idempotent_witness :
    (getTournamentById sampleSt.tournaments "t1" = some tournamentA ∧
      tournamentA.status = "ACTIVE" ∧
      getBracketByTournamentId sampleSt.brackets "t1" = some bracketA) ∧
    createBracketForTournament sampleSt "t1" = .ok (sampleSt, bracketA) :=
  ⟨⟨rfl, rfl, rfl⟩,
    c10_idempotent sampleSt "t1" tournamentA bracketA rfl (Or.inl rfl) rfl⟩

/-! ### Claim C6 -/

/-- Claim C6: recording equal scores on a PENDING match always fails with an
InvalidInput-class ValueError (either the missing-players check or the
equal-scores check, both InvalidInput in the spec taxonomy), leaving the
state untouched; and once a first recording succeeds, any second recording
on the same match fails with InvalidState (the status-not-PENDING check):
a match transitions out of PENDING at most once. -/
theorem c6_decided_at_most_once (st : St) (tid matchId uid : String)
    (t : Tournament) (bpre : List BracketModel) (b : BracketModel)
    (bpost : List BracketModel)
    (pre : List MatchModel) (m : MatchModel) (post : List MatchModel)
    (hts : getTournamentById st.tournaments tid = some t)
    (hadmin : t.admin_id = uid)
    (hbr : st.brackets = bpre ++ b :: bpost)
    (hbpre : ∀ x ∈ bpre, (x.tournament_id == tid) = false)
    (hbtid : (b.tournament_id == tid) = true)
    (hmdec : b.matchList = pre ++ m :: post)
    (hpre : ∀ x ∈ pre, (x.id == matchId) = false)
    (hmid : (m.id == matchId) = true)
    (hpend : m.status = MatchStatus.PENDING) :
    (∀ s : Int, ∃ e, recordMatchResult defaultSink st tid matchId s s uid = .error e ∧
      e.isInvalidInput = true) ∧
    (∀ (s1 s2 : Int) (st2 : St) (rm : MatchModel),
      recordMatchResult defaultSink st tid matchId s1 s2 uid = .ok (st2, rm) →
      ∀ (s3 s4 : Int),
        recordMatchResult defaultSink st2 tid matchId s3 s4 uid
          = .error .notPending) := by
  constructor
  · intro s
    have hrec := recordMatchResult_found defaultSink st tid matchId uid s s t bpre b bpost
      hts hadmin hbr hbpre hbtid
    rw [processBracket, hmdec, recordOnMatches_found s s matchId pre m post hpre hmid,
      if_neg (fun hc => hc hpend)] at hrec
    by_cases hf : (falsyStr m.player1_id || falsyStr m.player2_id) = true
    · rw [if_pos hf] at hrec
      exact ⟨.missingPlayers, by rw [hrec], rfl⟩
    · rw [if_neg hf, if_pos (beq_self_eq_true s)] at hrec
      exact ⟨.equalScores, by rw [hrec], rfl⟩
  · intro s1 s2 st2 rm hok s3 s4
    have hrec := recordMatchResult_found defaultSink st tid matchId uid s1 s2 t bpre b bpost
      hts hadmin hbr hbpre hbtid
    by_cases hf : (falsyStr m.player1_id || falsyStr m.player2_id) = true
    · rw [processBracket, hmdec, recordOnMatches_found s1 s2 matchId pre m post hpre hmid,
        if_neg (fun hc => hc hpend), if_pos hf] at hrec
      rw [hrec] at hok
      exact Except.noConfusion hok
    · have hp1 : falsyStr m.player1_id = false := by
        revert hf
        cases falsyStr m.player1_id <;> simp
      have hp2 : falsyStr m.player2_id = false := by
        revert hf
        cases falsyStr m.player1_id <;> cases falsyStr m.player2_id <;> simp
      by_cases hEq : (s1 == s2) = true
      · rw [processBracket, hmdec, recordOnMatches_found s1 s2 matchId pre m post hpre hmid,
          if_neg (fun hc => hc hpend), if_neg hf, if_pos hEq] at hrec
        rw [hrec] at hok
        exact Except.noConfusion hok
      · have hs : s1 ≠ s2 := by
          intro hc
          rw [hc] at hEq
          exact hEq (beq_self_eq_true s2)
        have hpb := processBracket_success defaultSink st.tournaments b tid matchId s1 s2
          pre m post hmdec hpre hmid hpend hp1 hp2 hs
        rw [hrec, hpb] at hok
        have hmid1 : ((decideMatch m s1 s2).id == matchId) = true := by
          rw [decideMatch_id]
          exact hmid
        have hnp1 : decideMatch m s1 s2 ≠ m → True := fun _ => trivial
        by_cases hnx : falsyStr (decideMatch m s1 s2).next_match_id = true
        · rw [if_pos hnx] at hok
          obtain ⟨ts2, hsink, hlook⟩ :=
            defaultSink_lookup st.tournaments tid "COMPLETED" t hts (by decide)
          rw [finalizeTournament, hsink] at hok
          have hok2 : (Except.ok
              ({ tournaments := ts2,
                 brackets :=
                   bpre ++ { b with matchList := pre ++ decideMatch m s1 s2 :: post } :: bpost },
               decideMatch m s1 s2) : Except PyErr (St × MatchModel)) = .ok (st2, rm) := hok
          have hp := Except.ok.inj hok2
          injection hp with hst2 hrm
          rw [← hst2]
          have hrec2 := recordMatchResult_found defaultSink
            ({ tournaments := ts2,
               brackets :=
                 bpre ++ { b with matchList := pre ++ decideMatch m s1 s2 :: post } :: bpost })
            tid matchId uid s3 s4 { t with status := "COMPLETED" } bpre
            { b with matchList := pre ++ decideMatch m s1 s2 :: post } bpost
            hlook hadmin rfl hbpre hbtid
          rw [hrec2, processBracket,
            recordOnMatches_found s3 s4 matchId pre (decideMatch m s1 s2) post hpre hmid1,
            if_pos (decideMatch_not_pending m s1 s2 hs)]
        · rw [if_neg hnx] at hok
          rcases hAdv : advanceList (decideMatch m s1 s2)
              ((decideMatch m s1 s2).next_match_id.getD "")
              (pre ++ decideMatch m s1 s2 :: post) with e | ms2
          · rw [hAdv] at hok
            exact Except.noConfusion hok
          · rw [hAdv] at hok
            have hshape := advanceList_shape (decideMatch m s1 s2)
              ((decideMatch m s1 s2).next_match_id.getD "") _ _ hAdv
            obtain ⟨pre2, rest2, hms2, hfpre, hfrest⟩ := forall2_append_split hshape
            obtain ⟨mX, post2, hrest2, hmX, hfpost⟩ :
                ∃ mX post2, rest2 = mX :: post2 ∧ idStatusEq (decideMatch m s1 s2) mX ∧
                  List.Forall₂ idStatusEq post post2 := by
              cases hfrest with
              | cons hx ht => exact ⟨_, _, rfl, hx, ht⟩
            subst hrest2
            have hok2 : (Except.ok
                ({ tournaments := st.tournaments,
                   brackets := bpre ++ { b with matchList := ms2 } :: bpost },
                 decideMatch m s1 s2) : Except PyErr (St × MatchModel)) = .ok (st2, rm) := hok
            have hp := Except.ok.inj hok2
            injection hp with hst2 hrm
            rw [← hst2]
            have hpre2 : ∀ x ∈ pre2, (x.id == matchId) = false := by
              intro x hx
              obtain ⟨a, ha, hr⟩ := forall2_mem_right hfpre x hx
              rw [hr.1]
              exact hpre a ha
            have hmidX : (mX.id == matchId) = true := by
              rw [hmX.1, decideMatch_id]
              exact hmid
            have hXnp : mX.status ≠ MatchStatus.PENDING := by
              rw [hmX.2]
              exact decideMatch_not_pending m s1 s2 hs
            have hrec2 := recordMatchResult_found defaultSink
              ({ tournaments := st.tournaments,
                 brackets := bpre ++ { b with matchList := ms2 } :: bpost })
              tid matchId uid s3 s4 t bpre { b with matchList := ms2 } bpost
              hts hadmin rfl hbpre hbtid
            rw [hrec2, processBracket]
            have hms2dec : ({ b with matchList := ms2 } : BracketModel).matchList
                = pre2 ++ mX :: post2 := hms2
            rw [hms2dec, recordOnMatches_found s3 s4 matchId pre2 mX post2 hpre2 hmidX,
              if_pos hXnp]

/-- Witness for C6 at the concrete state. -/
theorem c6_decided_at_most_once_witness :
    (getTournamentById sampleSt2.tournaments "t1" = some tournamentA ∧
      sampleSt2.brackets = [] ++ bracketB :: [] ∧
      bracketB.matchList = [] ++ matchA :: [matchF] ∧
      matchA.status = MatchStatus.PENDING) ∧
    ((∀ s : Int, ∃ e,
      recordMatchResult defaultSink sampleSt2 "t1" "m1" s s "alice" = .error e ∧
      e.isInvalidInput = true) ∧
    (∀ (s1 s2 : Int) (st2 : St) (rm : MatchModel),
      recordMatchResult defaultSink sampleSt2 "t1" "m1" s1 s2 "alice" = .ok (st2, rm) →
      ∀ (s3 s4 : Int),
        recordMatchResult defaultSink st2 "t1" "m1" s3 s4 "alice"
          = .error .notPending)) :=
  ⟨⟨rfl, rfl, rfl, rfl⟩,
    c6_decided_at_most_once sampleSt2 "t1" "m1" "alice" tournamentA [] bracketB []
      [] matchA [matchF] rfl rfl rfl (by decide) (by decide) rfl (by decide)
      (by decide) rfl⟩
